import Mathlib

/-!
Shallow embedding of the order-fulfillment core of a conversational storefront
(single source file `main.py`): the dialect adapter's mutate-mode result
contract, the inventory ledger (products, variants, atomic conditional
decrement), the order ledger, and the buyer checkout state machine.

Python floats (`REAL` money columns) are modelled as exact rationals `ℚ`;
Python `int` as `Int`/`Nat`; SQL tables as lists of rows; the per-session
FSM working memory (`FSMContext` data bag) as a record of `Option` fields.
Python string primitives (`strip`, `split`, `isdigit`, `upper`, `in`) are
re-implemented structurally on `List Char` so that the kernel can evaluate
them on concrete inputs.
-/

/-! ### Python string primitives -/

/-- Python `str.strip()`: drop leading and trailing whitespace. -/
def pyStrip (l : List Char) : List Char :=
  ((l.dropWhile Char.isWhitespace).reverse.dropWhile Char.isWhitespace).reverse

/-- Python `str.split(sep)` for a single-character separator. -/
def splitOnChar (sep : Char) : List Char → List (List Char)
  | [] => [[]]
  | c :: rest =>
    if c == sep then [] :: splitOnChar sep rest
    else
      match splitOnChar sep rest with
      | [] => [[c]]
      | w :: ws => (c :: w) :: ws

/-- Python `str.split()` (no argument): split on whitespace runs, no empty tokens. -/
def pySplitWs : List Char → List (List Char)
  | [] => []
  | c :: rest =>
    if c.isWhitespace then pySplitWs rest
    else
      match rest with
      | [] => [[c]]
      | d :: _ =>
        if d.isWhitespace then [c] :: pySplitWs rest
        else
          match pySplitWs rest with
          | [] => [[c]]
          | w :: ws => (c :: w) :: ws

/-- Python `str.isdigit()` restricted to ASCII digits (the only ones the bot meets). -/
def pyIsDigit (l : List Char) : Bool :=
  !l.isEmpty && l.all Char.isDigit

/-- Numeric value of a list of ASCII digits (Python `int` on a digit string). -/
def digitsVal (l : List Char) : Nat :=
  l.foldl (fun n c => 10 * n + (c.toNat - 48)) 0

/-- Python `int(tok)` on a bare token: optional minus sign followed by digits,
`none` models a raised `ValueError`. -/
def pyIntOfToken : List Char → Option Int
  | [] => none
  | c :: rest =>
    if c == '-' then (if pyIsDigit rest then some (-(digitsVal rest : Int)) else none)
    else if pyIsDigit (c :: rest) then some ((digitsVal (c :: rest) : Nat) : Int) else none

/-- Does `text` start with `pat`? (building block for Python `in`). -/
def startsChars : List Char → List Char → Bool
  | [], _ => true
  | _ :: _, [] => false
  | a :: pa, b :: tb => a == b && startsChars pa tb

/-- Python `pat in text` (substring containment). -/
def hasSubChars (pat : List Char) : List Char → Bool
  | [] => startsChars pat []
  | c :: rest => startsChars pat (c :: rest) || hasSubChars pat rest

/-! ### Dialect adapter: `DB.execute` in mutate mode (no fetchone/fetchall)

`main.py` lines 66-108.  The SQLite branch returns `cursor.lastrowid` when the
statement text contains `INSERT` (uppercased) and not `RETURNING`, else
`cursor.rowcount`.  The PostgreSQL branch executes and parses the trailing
token of the status tag string (e.g. `"INSERT 0 1"`, `"UPDATE 3"`) as an
integer, returning 0 when that raises. -/

namespace DB

/-- Python `pat in sql.upper()` for an uppercase pattern `pat`. -/
def pyUpperIn (pat : String) (sql : String) : Bool :=
  hasSubChars pat.toList (sql.toList.map Char.toUpper)

/-- The mutate-mode return value of the SQLite branch of `DB.execute`:
`last_id if "INSERT" in sql.upper() and "RETURNING" not in sql.upper() else row_count`. -/
def executeMutateSqlite (sql : String) (lastrowid rowcount : Int) : Int :=
  if pyUpperIn "INSERT" sql && !(pyUpperIn "RETURNING" sql) then lastrowid else rowcount

/-- The mutate-mode return value of the PostgreSQL branch of `DB.execute`:
`int(status.split()[-1])` with any failure (IndexError/ValueError) mapped to 0. -/
def executeMutatePg (status : String) : Int :=
  match (pySplitWs status.toList).getLast? with
  | some tok => (pyIntOfToken tok).getD 0
  | none => 0

end DB

/-! ### Inventory, order ledger and their operations -/

/-- A row of the `stock` table: `stock(id, name UNIQUE, quantity >= 0, price)`. -/
structure Product where
  id : Nat
  name : String
  quantity : Int
  price : ℚ
deriving DecidableEq, Repr

/-- A row of the `variants` table:
`variants(id, product_id -> stock, name, quantity >= 0, UNIQUE(product_id, name))`. -/
structure Variant where
  id : Nat
  productId : Nat
  name : String
  quantity : Int
deriving DecidableEq, Repr

/-- A row of the `orders` table. `created_at` is not modelled (no operation reads it
except for display ordering). -/
structure Order where
  id : Nat
  userId : Int
  username : String
  productName : String
  quantity : Int
  totalPrice : ℚ
  deliveryMethod : String
  address : Option String
  status : String
deriving DecidableEq, Repr

/-- The relational state: the three tables plus the autoincrement counters. -/
structure DBState where
  stock : List Product
  variants : List Variant
  orders : List Order
  nextStockId : Nat
  nextVariantId : Nat
  nextOrderId : Nat
deriving DecidableEq, Repr

/-- Lexicographic codepoint order on names, modelling SQL `ORDER BY name`. -/
def charsLt : List Char → List Char → Bool
  | [], [] => false
  | [], _ :: _ => true
  | _ :: _, [] => false
  | a :: as, b :: bs => a < b || (a == b && charsLt as bs)

/-- `ORDER BY`-comparison on row names. -/
def nameLe (s t : String) : Bool :=
  !(charsLt t.toList s.toList)

/-- Insertion step of the `ORDER BY name` sort. -/
def insertLe {α : Type} (key : α → String) (v : α) : List α → List α
  | [] => [v]
  | w :: ws => if nameLe (key v) (key w) then v :: w :: ws else w :: insertLe key v ws

/-- Stable sort by name (`ORDER BY name`). -/
def sortByName {α : Type} (key : α → String) : List α → List α
  | [] => []
  | v :: vs => insertLe key v (sortByName key vs)

/-- The `WHERE name = ?` / `ON CONFLICT(name)` row selector on `stock`. -/
def byName (name : String) (p : Product) : Bool :=
  p.name == name

/-- The `DO UPDATE SET price = excluded.price` row action. -/
def priceUpd (name : String) (price : ℚ) (p : Product) : Product :=
  if byName name p then { p with price := price } else p

/-- `upsert_stock` (main.py 190-202): `INSERT INTO stock (name, quantity, price)
VALUES (?, 0, ?) ON CONFLICT(name) DO UPDATE SET price = excluded.price RETURNING id`.
Returns the updated state and the identifier delivered by `RETURNING id`. -/
def upsert_stock (db : DBState) (name : String) (price : ℚ) : DBState × Nat :=
  match db.stock.find? (byName name) with
  | some p =>
      ({ db with stock := db.stock.map (priceUpd name price) }, p.id)
  | none =>
      ({ db with
          stock := db.stock ++ [⟨db.nextStockId, name, 0, price⟩],
          nextStockId := db.nextStockId + 1 },
        db.nextStockId)

/-- The `ON CONFLICT(product_id, name)` row selector on `variants`. -/
def byVariantKey (productId : Nat) (variantName : String) (v : Variant) : Bool :=
  v.productId == productId && v.name == variantName

/-- The `DO UPDATE SET quantity = variants.quantity + excluded.quantity` row action. -/
def qtyAdd (productId : Nat) (variantName : String) (quantity : Int) (v : Variant) : Variant :=
  if byVariantKey productId variantName v then { v with quantity := v.quantity + quantity } else v

/-- `upsert_variant` (main.py 205-214): `INSERT INTO variants (product_id, name, quantity)
VALUES (?, ?, ?) ON CONFLICT(product_id, name) DO UPDATE SET
quantity = variants.quantity + excluded.quantity`. -/
def upsert_variant (db : DBState) (productId : Nat) (variantName : String) (quantity : Int) :
    DBState :=
  if db.variants.any (byVariantKey productId variantName) then
    { db with variants := db.variants.map (qtyAdd productId variantName quantity) }
  else
    { db with
        variants := db.variants ++ [⟨db.nextVariantId, productId, variantName, quantity⟩],
        nextVariantId := db.nextVariantId + 1 }

/-- Total variant quantity of a product (`COALESCE(SUM(v.quantity), 0)` of the join). -/
def productTotalQty (db : DBState) (productId : Nat) : Int :=
  ((db.variants.filter (fun v => v.productId == productId)).map (fun v => v.quantity)).sum

/-- `fetch_products` (main.py 217-229): products `HAVING` total variant quantity `> 0`,
annotated rows `(id, name, total_qty, price)`, `ORDER BY s.name`. -/
def fetch_products (db : DBState) : List (Nat × String × Int × ℚ) :=
  (sortByName (fun p => p.name) (db.stock.filter (fun p => 0 < productTotalQty db p.id))).map
    (fun p => (p.id, p.name, productTotalQty db p.id, p.price))

/-- `fetch_product_variants` (main.py 232-236): variants of a product with
`quantity > 0`, `ORDER BY name` (the buyer-facing view). -/
def fetch_product_variants (db : DBState) (productId : Nat) : List Variant :=
  sortByName (fun v => v.name)
    (db.variants.filter (fun v => v.productId == productId && 0 < v.quantity))

/-- `fetch_variant` (main.py 239-248): the variant row joined with its product row. -/
def fetch_variant (db : DBState) (variantId : Nat) : Option (Variant × Product) :=
  match db.variants.find? (fun v => v.id == variantId) with
  | none => none
  | some v =>
    match db.stock.find? (fun p => p.id == v.productId) with
    | none => none
    | some p => some (v, p)

/-- `fetch_product_simple` (main.py 369-372): `SELECT id, name, price FROM stock WHERE id = ?`. -/
def fetch_product_simple (db : DBState) (productId : Nat) : Option Product :=
  db.stock.find? (fun p => p.id == productId)

/-- The `WHERE id = ? AND quantity >= ?` row selector of the reservation update. -/
def decHit (variantId : Nat) (quantity : Int) (v : Variant) : Bool :=
  v.id == variantId && decide (quantity ≤ v.quantity)

/-- The `SET quantity = quantity - ?` row action of the reservation update. -/
def decUpd (variantId : Nat) (quantity : Int) (v : Variant) : Variant :=
  if decHit variantId quantity v then { v with quantity := v.quantity - quantity } else v

/-- `decrement_variant_stock` (main.py 273-278), the reservation primitive:
`UPDATE variants SET quantity = quantity - ? WHERE id = ? AND quantity >= ?`,
reporting `row_count == 1`.  The update is applied to every matching row
(exactly the rows the `WHERE` clause selects) and success is whether that
row count is one. -/
def decrement_variant_stock (vs : List Variant) (variantId : Nat) (quantity : Int) :
    List Variant × Bool :=
  ((vs.map (decUpd variantId quantity)),
    (vs.filter (decHit variantId quantity)).length == 1)

/-- `create_order` (main.py 281-299): insert a row in status `'pending'`, `RETURNING id`. -/
def create_order (db : DBState) (userId : Int) (username productName : String)
    (quantity : Int) (totalPrice : ℚ) (deliveryMethod : String) (address : Option String) :
    DBState × Nat :=
  ({ db with
      orders := db.orders ++
        [⟨db.nextOrderId, userId, username, productName, quantity, totalPrice,
          deliveryMethod, address, "pending"⟩],
      nextOrderId := db.nextOrderId + 1 },
    db.nextOrderId)

/-- The `WHERE id = ?` row selector on `orders`. -/
def byOrderId (orderId : Nat) (o : Order) : Bool :=
  o.id == orderId

/-- The `SET status = ?` row action of the decision update. -/
def statusUpd (orderId : Nat) (status : String) (o : Order) : Order :=
  if byOrderId orderId o then { o with status := status } else o

/-- `update_order_status` (main.py 313-319):
`UPDATE orders SET status = ? WHERE id = ? RETURNING user_id`; yields the owning
buyer id when a row was hit, else `none`. The status is overwritten whatever its
previous value was. -/
def update_order_status (db : DBState) (orderId : Nat) (status : String) :
    DBState × Option Int :=
  match db.orders.find? (byOrderId orderId) with
  | none => (db, none)
  | some o =>
      ({ db with orders := db.orders.map (statusUpd orderId status) }, some o.userId)

/-- `get_user_stats` (main.py 330-339): `SELECT SUM(quantity), SUM(total_price) FROM orders
WHERE user_id = ? AND status = 'confirmed'`, then `(row[0] or 0, row[1] or 0.0)`.
SQL `SUM` over zero rows is NULL, modelled by the emptiness test; the Python
`or` also maps a falsy 0 to the default, which is value-identical. -/
def get_user_stats (db : DBState) (userId : Int) : Int × ℚ :=
  let sel := db.orders.filter (fun o => o.userId == userId && o.status == "confirmed")
  let sumQty : Option Int := if sel.isEmpty then none else some ((sel.map (fun o => o.quantity)).sum)
  let sumTotal : Option ℚ := if sel.isEmpty then none else some ((sel.map (fun o => o.totalPrice)).sum)
  (match sumQty with
   | none => 0
   | some v => if v == 0 then 0 else v,
   match sumTotal with
   | none => 0
   | some v => if v == 0 then 0 else v)

/-- `process_order_decision` (main.py 1266-1309), the db-relevant core: an
administrator clicking `order:confirm:<id>` or `order:reject:<id>` runs
`update_order_status(order_id, "confirmed" | "rejected")` unconditionally. -/
def process_order_decision (db : DBState) (action : String) (orderId : Nat) :
    DBState × Option Int :=
  update_order_status db orderId (if action == "confirm" then "confirmed" else "rejected")

/-! ### The checkout state machine (order_router, main.py 894-1243)

Events carry the payloads the aiogram filters would deliver: free text for
message handlers and the suffix of the `callback_data` for callback handlers.
One step = one inbound event dispatched by registration order: the
`start_order` text button first, then the state-filtered handlers, and the
`session_expired` catch-all for checkout callbacks arriving in a non-matching
state. -/

/-- The `OrderStates` group. -/
inductive OrderState where
  | choosing_product
  | choosing_variant
  | entering_quantity
  | choosing_delivery
  | choosing_shipping
  | choosing_dpd_option
  | entering_address
  | choosing_pickup_city
  | entering_phone
  | choosing_payment
  | confirming_order
deriving DecidableEq, Repr

/-- The FSM working memory: the current state plus the `FSMContext` data bag.
`update_data(shipping_method=None, ...)` stores a Python `None`; every reader
uses `data.get(...)`, for which a stored `None` and an absent key coincide, so
both are modelled as `none`. -/
structure Session where
  state : Option OrderState
  productId : Option Nat
  productName : Option String
  price : Option ℚ
  variantId : Option Nat
  variantName : Option String
  maxQuantity : Option Int
  quantity : Option Int
  deliveryType : Option String
  shippingMethod : Option String
  shippingCost : Option ℚ
  address : Option String
  phone : Option String
  paymentMethod : Option String
deriving DecidableEq, Repr

/-- `state.clear()`: state and data bag gone. -/
def clearedSession : Session :=
  ⟨none, none, none, none, none, none, none, none, none, none, none, none, none, none⟩

/-- The sender as finalize_order sees it. -/
structure UserT where
  id : Int
  fullName : String
  username : Option String
deriving DecidableEq, Repr

/-- The three exits of the confirmation summary keyboard. -/
inductive ConfirmAction where
  | yes
  | no
  | cancel
deriving DecidableEq, Repr

/-- Inbound checkout events. -/
inductive Event where
  | msgText (t : String)
  | cbProduct (productId : Nat)
  | cbDelivery (d : String)
  | cbPickupCity (city : String)
  | cbShipping (m : String)
  | cbDpdOption (o : String)
  | cbPayment (m : String)
  | cbConfirm (a : ConfirmAction)
deriving DecidableEq, Repr

/-- The observable response of one step, reduced to what the claims mention. -/
inductive Output where
  | other
  | expired
  | promptPayment (allowCash : Bool)
  | soldOut
  | systemError
  | orderAccepted (orderId : Nat) (total : ℚ)
deriving DecidableEq, Repr

/-- Result of dispatching one event. -/
structure StepRes where
  db : DBState
  sess : Session
  out : Output
deriving DecidableEq, Repr

/-- `payment_keyboard` (main.py 536-542): BLIK always, cash only when allowed. -/
def payment_keyboard (allowCash : Bool) : List String :=
  ["BLIK"] ++ (if allowCash then ["Gotówka"] else [])

/-- The variant button label rebuilt by `choose_variant` / `enter_quantity`:
`f"🔹 {v[1]} ({v[2]})"`. -/
def variantLabel (v : Variant) : String :=
  "🔹 " ++ v.name ++ " (" ++ toString v.quantity ++ ")"

/-- `start_order` (main.py 894-904): the "🛍️ Kupuję" button; enters
`choosing_product` only when the purchasable list is non-empty.  The data bag
is not cleared. -/
def start_order (db : DBState) (s : Session) : StepRes :=
  if (fetch_products db).isEmpty then ⟨db, s, .other⟩
  else ⟨db, { s with state := some .choosing_product }, .other⟩

/-- `choose_product` (main.py 909-930). -/
def choose_product (db : DBState) (s : Session) (productId : Nat) : StepRes :=
  match fetch_product_simple db productId with
  | none => ⟨db, s, .other⟩
  | some product =>
    if (fetch_product_variants db productId).isEmpty then ⟨db, s, .other⟩
    else
      ⟨db,
        { s with
            productId := some productId, productName := some product.name,
            price := some product.price, state := some .choosing_variant },
        .other⟩

/-- `choose_variant` (main.py 933-964): cancel clears; otherwise the free text
is matched against the rebuilt labels of the live variant list. -/
def choose_variant (db : DBState) (s : Session) (t : String) : StepRes :=
  if t == "🔙 Anuluj" then ⟨db, clearedSession, .other⟩
  else
    match s.productId with
    | none => ⟨db, s, .other⟩
    | some pid =>
      match (fetch_product_variants db pid).find? (fun v => t == variantLabel v) with
      | none => ⟨db, s, .other⟩
      | some v =>
        ⟨db,
          { s with
              variantId := some v.id, variantName := some v.name,
              maxQuantity := some v.quantity, state := some .entering_quantity },
          .other⟩

/-- The soft-backtrack probe of `enter_quantity`: a "🔹"-prefixed input matched
against the rebuilt labels of the live variant list. -/
def backtrackVariant (db : DBState) (s : Session) (t : List Char) : Option Variant :=
  if startsChars "🔹".toList t then
    match s.productId with
    | some pid => (fetch_product_variants db pid).find? (fun v => t == (variantLabel v).toList)
    | none => none
  else none

/-- `enter_quantity` (main.py 967-1012): a "🔹"-prefixed input that matches a
live variant label is a soft backtrack (variant re-selection) that stays in
`entering_quantity`; otherwise the stripped input must be digits, at least 1,
and within the re-fetched live stock. -/
def enter_quantity (db : DBState) (s : Session) (t0 : String) : StepRes :=
  match backtrackVariant db s (pyStrip t0.toList) with
  | some v =>
    ⟨db,
      { s with
          variantId := some v.id, variantName := some v.name,
          maxQuantity := some v.quantity },
      .other⟩
  | none =>
    if !(pyIsDigit (pyStrip t0.toList)) then ⟨db, s, .other⟩
    else if ((digitsVal (pyStrip t0.toList) : Nat) : Int) < 1 then ⟨db, s, .other⟩
    else
      match s.variantId with
      | none => ⟨db, s, .other⟩
      | some vid =>
        match fetch_variant db vid with
        | none => ⟨db, s, .other⟩
        | some vp =>
          if vp.1.quantity < ((digitsVal (pyStrip t0.toList) : Nat) : Int) then
            ⟨db, s, .other⟩
          else
            ⟨db,
              { s with
                  quantity := some ((digitsVal (pyStrip t0.toList) : Nat) : Int),
                  state := some .choosing_delivery },
              .other⟩

/-- `choose_delivery` (main.py 1015-1033): `"ship"` goes to carrier choice,
anything else (the keyboard's `"pickup"`) to pickup-city choice. -/
def choose_delivery (db : DBState) (s : Session) (d : String) : StepRes :=
  let s1 := { s with deliveryType := some d }
  if d == "ship" then ⟨db, { s1 with state := some .choosing_shipping }, .other⟩
  else ⟨db, { s1 with state := some .choosing_pickup_city }, .other⟩

/-- `choose_pickup_city` (main.py 1036-1046): zero surcharge, no carrier, the
pickup note stored in `address`, then the payment keyboard with cash allowed
(`payment_keyboard()`'s default). -/
def choose_pickup_city (db : DBState) (s : Session) (city : String) : StepRes :=
  ⟨db,
    { s with
        shippingMethod := none, shippingCost := some 0,
        address := some ("Odbiór osobisty: " ++ city),
        state := some .choosing_payment },
    .promptPayment true⟩

/-- `choose_shipping_method` (main.py 1117-1133): DPD branches once more;
anything else is InPost at a fixed 12 PLN surcharge. -/
def choose_shipping_method (db : DBState) (s : Session) (m : String) : StepRes :=
  if m == "DPD" then ⟨db, { s with state := some .choosing_dpd_option }, .other⟩
  else
    ⟨db,
      { s with
          shippingMethod := some "InPost", shippingCost := some 12,
          state := some .entering_address },
      .other⟩

/-- `choose_dpd_option` (main.py 1136-1150): to-point 6 PLN, to-locker 10 PLN. -/
def choose_dpd_option (db : DBState) (s : Session) (o : String) : StepRes :=
  if o == "point" then
    ⟨db,
      { s with
          shippingMethod := some "DPD Punkt", shippingCost := some 6,
          state := some .entering_address },
      .other⟩
  else
    ⟨db,
      { s with
          shippingMethod := some "DPD Automat", shippingCost := some 10,
          state := some .entering_address },
      .other⟩

/-- `enter_address` (main.py 1153-1162): at least 5 characters. -/
def enter_address (db : DBState) (s : Session) (t : String) : StepRes :=
  if (pyStrip t.toList).length < 5 then ⟨db, s, .other⟩
  else
    ⟨db,
      { s with address := some (String.mk (pyStrip t.toList)), state := some .entering_phone },
      .other⟩

/-- `enter_phone` (main.py 1165-1174): at least 9 characters, then the payment
keyboard with `allow_cash=False`. -/
def enter_phone (db : DBState) (s : Session) (t : String) : StepRes :=
  if (pyStrip t.toList).length < 9 then ⟨db, s, .other⟩
  else
    ⟨db,
      { s with phone := some (String.mk (pyStrip t.toList)), state := some .choosing_payment },
      .promptPayment false⟩

/-- `choose_payment` (main.py 1049-1096): records the method, then builds the
summary from mandatory `data[...]` reads and moves to `confirming_order`.
A missing mandatory key raises `KeyError` after `payment_method` was already
written: the state is then not advanced. -/
def choose_payment (db : DBState) (s : Session) (m : String) : StepRes :=
  match s.productName, s.variantName, s.quantity, s.price, s.deliveryType with
  | some _, some _, some _, some _, some _ =>
      ⟨db, { s with paymentMethod := some m, state := some .confirming_order }, .other⟩
  | _, _, _, _, _ => ⟨db, { s with paymentMethod := some m }, .other⟩

/-- `finalize_order` (main.py 1182-1243), parameterised by the db state seen at
the advisory re-check (`dbCheck`) and the one the conditional decrement runs
against (`dbRun`); a sequential run passes the same state twice, a lost race is
an interleaved decrement between them.  `none` models the `KeyError` raised
when a mandatory `data[...]` key is missing. -/
def finalize_order (s : Session) (dbCheck dbRun : DBState) (user : UserT) : Option StepRes :=
  match s.productId, s.productName, s.variantId, s.variantName, s.quantity, s.price,
      s.deliveryType with
  | some _, some productName, some variantId, some variantName, some quantity, some price,
      some deliveryType =>
    let shippingCost := s.shippingCost.getD 0
    let totalPrice : ℚ := (quantity : ℚ) * price + shippingCost
    some <|
      match fetch_variant dbCheck variantId with
      | none => ⟨dbRun, clearedSession, .soldOut⟩
      | some vp =>
        if vp.1.quantity < quantity then ⟨dbRun, clearedSession, .soldOut⟩
        else
          let dec := decrement_variant_stock dbRun.variants variantId quantity
          let dbDec := { dbRun with variants := dec.1 }
          if !dec.2 then ⟨dbDec, clearedSession, .systemError⟩
          else
            let fullName := productName ++ " (" ++ variantName ++ ")"
            let details :=
              "Dostawa: " ++ deliveryType
                ++ (match s.shippingMethod with
                    | some sm => ", Przewoźnik: " ++ sm
                    | none => "")
                ++ (match s.address with
                    | some a => ", Adres: " ++ a
                    | none => "")
                ++ (match s.phone with
                    | some p => ", Telefon: " ++ p
                    | none => "")
                ++ (match s.paymentMethod with
                    | some pm => ", Płatność: " ++ pm
                    | none => "")
            let username := user.fullName ++ " (@" ++ user.username.getD "-" ++ ")"
            let created := create_order dbDec user.id username fullName quantity totalPrice
              details s.address
            ⟨created.1, clearedSession, .orderAccepted created.2 totalPrice⟩
  | _, _, _, _, _, _, _ => none

/-- `process_order_confirmation` (main.py 1099-1114): the three exits of
`confirming_order`.  "yes" runs `finalize_order` sequentially (both db views
coincide); "no" and "cancel" clear the session. -/
def process_order_confirmation (db : DBState) (s : Session) (a : ConfirmAction)
    (user : UserT) : StepRes :=
  match a with
  | .yes =>
    match finalize_order s db db user with
    | some r => r
    | none => ⟨db, s, .other⟩
  | .no => ⟨db, clearedSession, .other⟩
  | .cancel => ⟨db, clearedSession, .other⟩

/-- One dispatch of an inbound checkout event, following aiogram registration
order: `start_order`'s exact-text filter first, then the state-filtered
handlers, and for checkout callbacks in a non-matching state the
`session_expired` catch-all (main.py 1177-1179). -/
def step (db : DBState) (s : Session) (e : Event) (user : UserT) : StepRes :=
  match e with
  | .msgText t =>
    if t == "🛍️ Kupuję" then start_order db s
    else
      match s.state with
      | some .choosing_variant => choose_variant db s t
      | some .entering_quantity => enter_quantity db s t
      | some .entering_address => enter_address db s t
      | some .entering_phone => enter_phone db s t
      | _ => ⟨db, s, .other⟩
  | .cbProduct pid =>
    if s.state = some .choosing_product then choose_product db s pid else ⟨db, s, .expired⟩
  | .cbDelivery d =>
    if s.state = some .choosing_delivery then choose_delivery db s d else ⟨db, s, .expired⟩
  | .cbPickupCity city =>
    if s.state = some .choosing_pickup_city then choose_pickup_city db s city
    else ⟨db, s, .expired⟩
  | .cbShipping m =>
    if s.state = some .choosing_shipping then choose_shipping_method db s m
    else ⟨db, s, .expired⟩
  | .cbDpdOption o =>
    if s.state = some .choosing_dpd_option then choose_dpd_option db s o else ⟨db, s, .expired⟩
  | .cbPayment m =>
    if s.state = some .choosing_payment then choose_payment db s m else ⟨db, s, .expired⟩
  | .cbConfirm a =>
    if s.state = some .confirming_order then process_order_confirmation db s a user
    else ⟨db, s, .expired⟩

/-- Sessions reachable through any interleaving of checkout events, with the
database free to change arbitrarily between steps (other sessions and admin
actions run concurrently). -/
inductive Reach : Session → Prop where
  | init : Reach clearedSession
  | step (db : DBState) (e : Event) (user : UserT) {s : Session} :
      Reach s → Reach (step db s e user).sess

/-! ### Admin restock free-text parsing (`admin_save_variant`, main.py 780-806) -/

/-- The distinct replies of `admin_save_variant`. -/
inductive AdminReply where
  | badFormat
  | notANumber
  | negativeQty
  | saved (variantName : String) (quantity : Int)
deriving DecidableEq, Repr

/-- The field-count, digits and sign checks of `admin_save_variant`, applied to
the stripped `'|'`-split parts of the input. -/
def admin_parse_parts : List (List Char) → AdminReply
  | [variantName, qtyText] =>
    if !(pyIsDigit qtyText) then .notANumber
    else
      let quantity : Int := (digitsVal qtyText : Nat)
      if quantity < 0 then .negativeQty
      else .saved (String.mk variantName) quantity
  | _ => .badFormat

/-- The parse-and-validate pipeline of `admin_save_variant`: strip, split on
`'|'`, strip parts, require exactly two fields, require digits, convert, then
the (dead) negativity check. -/
def admin_save_variant (text : String) : AdminReply :=
  admin_parse_parts ((splitOnChar '|' (pyStrip text.toList)).map pyStrip)

/-- The delivery/shipping choices of §4.4 and their fixed surcharges. -/
inductive ShippingChoice where
  | pickup
  | inpost
  | dpdPoint
  | dpdLocker
deriving DecidableEq, Repr

/-- The fixed surcharge of each delivery/shipping choice. -/
def surcharge : ShippingChoice → ℚ
  | .pickup => 0
  | .inpost => 12
  | .dpdPoint => 6
  | .dpdLocker => 10

/-- Read the committed delivery/shipping choice back off the session bag. -/
def choiceOfSession (s : Session) : Option ShippingChoice :=
  match s.shippingMethod with
  | none => some .pickup
  | some m =>
    if m == "InPost" then some .inpost
    else if m == "DPD Punkt" then some .dpdPoint
    else if m == "DPD Automat" then some .dpdLocker
    else none


/-! ### Generic list lemmas -/

/-- `find?` commutes with a map that does not disturb the predicate. -/
theorem find?_map_self {α : Type} (p : α → Bool) (f : α → α)
    (hf : ∀ a, p (f a) = p a) (l : List α) :
    (l.map f).find? p = (l.find? p).map f := by
  induction l with
  | nil => rfl
  | cons a l ih =>
    rw [List.map_cons, List.find?_cons, List.find?_cons, hf]
    cases h : p a
    · exact ih
    · rfl

/-- `filter` commutes with a map that does not disturb the predicate. -/
theorem filter_map_self {α : Type} (p : α → Bool) (f : α → α)
    (hf : ∀ a, p (f a) = p a) (l : List α) :
    (l.map f).filter p = (l.filter p).map f := by
  induction l with
  | nil => rfl
  | cons a l ih =>
    rw [List.map_cons, List.filter_cons, List.filter_cons, hf]
    cases h : p a <;> simp [ih]

/-- Filtering by a conjunction is iterated filtering. -/
theorem filter_conj {α : Type} (p r : α → Bool) (l : List α) :
    l.filter (fun a => p a && r a) = (l.filter p).filter r := by
  induction l with
  | nil => rfl
  | cons a l ih =>
    rw [List.filter_cons, List.filter_cons]
    cases hp : p a <;> cases hr : r a <;> simp [List.filter_cons, hp, hr, ih]

/-- Membership is invariant under the insertion step of the name sort. -/
theorem mem_insertLe {α : Type} (key : α → String) (v w : α) (l : List α) :
    w ∈ insertLe key v l ↔ w = v ∨ w ∈ l := by
  induction l with
  | nil => simp [insertLe]
  | cons a l ih =>
    rw [insertLe]
    split
    · simp
    · simp only [List.mem_cons, ih]
      tauto

/-- Membership is invariant under the `ORDER BY name` sort. -/
theorem mem_sortByName {α : Type} (key : α → String) (l : List α) (w : α) :
    w ∈ sortByName key l ↔ w ∈ l := by
  induction l with
  | nil => simp [sortByName]
  | cons a l ih => simp [sortByName, mem_insertLe, ih]

/-! ### C5: upsert_variant accumulates quantities -/

/-- The current quantity of the `(product, name)` variant. -/
def variantQtyByName (db : DBState) (productId : Nat) (name : String) : Option Int :=
  (db.variants.find? (byVariantKey productId name)).map (fun v => v.quantity)

theorem qtyAdd_key (productId : Nat) (name : String) (d : Int) (v : Variant) :
    byVariantKey productId name (qtyAdd productId name d v) = byVariantKey productId name v := by
  rw [qtyAdd]
  split
  · simp_all [byVariantKey]
  · rfl

/-- C5. Restock semantics of `upsert_variant`: on a pair that is fresh in `db`, a
first call creates the variant at quantity `d1` and a second call adds `d2`,
leaving `d1 + d2` — the second call never overwrites. -/
theorem upsert_variant_accumulates (db : DBState) (productId : Nat) (name : String)
    (d1 d2 : Int)
    (hfresh : db.variants.all (fun v => !(byVariantKey productId name v)) = true)
    (hd1 : 0 ≤ d1) (hd2 : 0 ≤ d2) :
    variantQtyByName (upsert_variant db productId name d1) productId name = some d1 ∧
    variantQtyByName
      (upsert_variant (upsert_variant db productId name d1) productId name d2)
      productId name = some (d1 + d2) := by
  have hfresh' : ∀ v ∈ db.variants, ¬(byVariantKey productId name v) = true := by
    intro v hv
    have := List.all_eq_true.mp hfresh v hv
    simp only [Bool.not_eq_true'] at this
    simp [this]
  have hany : db.variants.any (byVariantKey productId name) = false := by
    rw [List.any_eq_false]; exact hfresh'
  have hfind : db.variants.find? (byVariantKey productId name) = none :=
    List.find?_eq_none.mpr hfresh'
  set w : Variant := ⟨db.nextVariantId, productId, name, d1⟩ with hw
  have hpw : byVariantKey productId name w = true := by simp [hw, byVariantKey]
  have h1 : upsert_variant db productId name d1 =
      { db with variants := db.variants ++ [w], nextVariantId := db.nextVariantId + 1 } := by
    rw [upsert_variant, if_neg (by simp [hany])]
  have hfind1 : (db.variants ++ [w]).find? (byVariantKey productId name) = some w := by
    rw [List.find?_append, hfind, Option.none_or, List.find?_cons_of_pos _ hpw]
  constructor
  · simp only [h1, variantQtyByName]
    rw [hfind1]
    rfl
  · have hany1 : (db.variants ++ [w]).any (byVariantKey productId name) = true :=
      List.any_eq_true.mpr ⟨w, by simp, hpw⟩
    have h2 : upsert_variant (upsert_variant db productId name d1) productId name d2 =
        { db with
            variants := (db.variants ++ [w]).map (qtyAdd productId name d2)
            nextVariantId := db.nextVariantId + 1 } := by
      rw [h1]
      simp only [upsert_variant, hany1, if_true]
    simp only [h2, variantQtyByName]
    rw [find?_map_self _ _ (qtyAdd_key productId name d2), hfind1]
    simp only [Option.map_map, Option.map_some, Function.comp_apply]
    simp [qtyAdd, hpw, hw]

/-- Witness for C5 at a concrete fresh pair. -/
theorem upsert_variant_accumulates_witness :
    variantQtyByName (upsert_variant ⟨[], [], [], 1, 1, 1⟩ 1 "Arbuz" 4) 1 "Arbuz" = some 4 ∧
    variantQtyByName
      (upsert_variant (upsert_variant ⟨[], [], [], 1, 1, 1⟩ 1 "Arbuz" 4) 1 "Arbuz" 6)
      1 "Arbuz" = some (4 + 6) :=
  upsert_variant_accumulates ⟨[], [], [], 1, 1, 1⟩ 1 "Arbuz" 4 6 (by decide) (by decide)
    (by decide)

/-! ### C6: upsert_stock updates only the price -/

/-- The stored quantity of the product named `name`. -/
def stockQtyByName (db : DBState) (name : String) : Option Int :=
  (db.stock.find? (byName name)).map (fun p => p.quantity)

/-- The stored price of the product named `name`. -/
def stockPriceByName (db : DBState) (name : String) : Option ℚ :=
  (db.stock.find? (byName name)).map (fun p => p.price)

theorem priceUpd_key (name : String) (pr : ℚ) (p : Product) :
    byName name (priceUpd name pr p) = byName name p := by
  rw [priceUpd]
  split
  · simp_all [byName]
  · rfl

/-- C6. Upserting the same product name twice: the identifier is stable across
both calls, the stored quantity after the second call is whatever it was after
the first, the price is the latest value, and a first call on a fresh name
inserts the product at zero stock. -/
theorem upsert_stock_price_latest (db : DBState) (name : String) (p1 p2 : ℚ) :
    (upsert_stock db name p1).2 = (upsert_stock (upsert_stock db name p1).1 name p2).2 ∧
    stockQtyByName (upsert_stock (upsert_stock db name p1).1 name p2).1 name =
      stockQtyByName (upsert_stock db name p1).1 name ∧
    stockPriceByName (upsert_stock (upsert_stock db name p1).1 name p2).1 name = some p2 ∧
    (db.stock.all (fun p => !(byName name p)) = true →
      stockQtyByName (upsert_stock db name p1).1 name = some 0) := by
  cases hfind : db.stock.find? (byName name) with
  | none =>
    set w : Product := ⟨db.nextStockId, name, 0, p1⟩ with hw
    have hpw : byName name w = true := by simp [hw, byName]
    have h1 : upsert_stock db name p1 =
        ({ db with
            stock := db.stock ++ [w]
            nextStockId := db.nextStockId + 1 },
          db.nextStockId) := by
      simp only [upsert_stock, hfind]
    have hfind1 : (db.stock ++ [w]).find? (byName name) = some w := by
      rw [List.find?_append, hfind, Option.none_or, List.find?_cons_of_pos _ hpw]
    have h2 : upsert_stock (upsert_stock db name p1).1 name p2 =
        ({ db with
            stock := (db.stock ++ [w]).map (priceUpd name p2)
            nextStockId := db.nextStockId + 1 },
          w.id) := by
      rw [h1]
      simp only [upsert_stock, hfind1]
    refine ⟨?_, ?_, ?_, fun _ => ?_⟩
    · rw [h2, h1]
    · rw [h2]
      simp only [h1, stockQtyByName]
      rw [find?_map_self _ _ (priceUpd_key name p2), hfind1]
      simp only [Option.map_map, Option.map_some, Function.comp_apply]
      simp [priceUpd, hpw]
    · rw [h2]
      simp only [stockPriceByName]
      rw [find?_map_self _ _ (priceUpd_key name p2), hfind1]
      simp only [Option.map_map, Option.map_some, Function.comp_apply]
      simp [priceUpd, hpw]
    · simp only [h1, stockQtyByName]
      rw [hfind1]
      simp [hw]
  | some p0 =>
    have hp0 : byName name p0 = true := List.find?_some hfind
    have hp0' : (p0.name == name) = true := by simpa [byName] using hp0
    have h1 : upsert_stock db name p1 =
        ({ db with stock := db.stock.map (priceUpd name p1) }, p0.id) := by
      simp only [upsert_stock, hfind]
    have hfind1 : (db.stock.map (priceUpd name p1)).find? (byName name) =
        some (priceUpd name p1 p0) := by
      rw [find?_map_self _ _ (priceUpd_key name p1), hfind]
      rfl
    have h2 : upsert_stock (upsert_stock db name p1).1 name p2 =
        ({ db with stock := (db.stock.map (priceUpd name p1)).map (priceUpd name p2) },
          (priceUpd name p1 p0).id) := by
      rw [h1]
      simp only [upsert_stock, hfind1]
    refine ⟨?_, ?_, ?_, fun hfresh => ?_⟩
    · rw [h2, h1]
      simp [priceUpd, byName, hp0']
    · rw [h2]
      simp only [h1, stockQtyByName]
      rw [find?_map_self _ _ (priceUpd_key name p2), hfind1]
      simp only [Option.map_map, Option.map_some, Function.comp_apply]
      simp [priceUpd, byName, hp0']
    · rw [h2]
      simp only [stockPriceByName]
      rw [find?_map_self _ _ (priceUpd_key name p2), hfind1]
      simp only [Option.map_map, Option.map_some, Function.comp_apply]
      simp [priceUpd, byName, hp0']
    · exfalso
      have hmem := List.mem_of_find?_eq_some hfind
      have := List.all_eq_true.mp hfresh p0 hmem
      simp [hp0] at this

/-- Witness for C6 at a concrete fresh name. -/
theorem upsert_stock_price_latest_witness :
    (upsert_stock ⟨[], [], [], 3, 1, 1⟩ "Wata" 9).2 =
      (upsert_stock (upsert_stock ⟨[], [], [], 3, 1, 1⟩ "Wata" 9).1 "Wata" 11).2 ∧
    stockQtyByName (upsert_stock (upsert_stock ⟨[], [], [], 3, 1, 1⟩ "Wata" 9).1 "Wata" 11).1
      "Wata" = stockQtyByName (upsert_stock ⟨[], [], [], 3, 1, 1⟩ "Wata" 9).1 "Wata" ∧
    stockPriceByName (upsert_stock (upsert_stock ⟨[], [], [], 3, 1, 1⟩ "Wata" 9).1 "Wata" 11).1
      "Wata" = some 11 ∧
    ((⟨[], [], [], 3, 1, 1⟩ : DBState).stock.all (fun p => !(byName "Wata" p)) = true →
      stockQtyByName (upsert_stock ⟨[], [], [], 3, 1, 1⟩ "Wata" 9).1 "Wata" = some 0) :=
  upsert_stock_price_latest ⟨[], [], [], 3, 1, 1⟩ "Wata" 9 11

/-! ### C9: buyer aggregate over confirmed orders only, defaulting to (0, 0) -/

/-- C9. `get_user_stats` equals the sums of `quantity` and `total_price` over the
buyer's `confirmed` orders (pending and rejected ones are ignored), and a buyer
with no confirmed order gets exactly `(0, 0)` rather than an absent value. -/
theorem get_user_stats_confirmed_only (db : DBState) (userId : Int) :
    get_user_stats db userId =
      (((db.orders.filter (fun o => o.userId == userId && o.status == "confirmed")).map
          (fun o => o.quantity)).sum,
        ((db.orders.filter (fun o => o.userId == userId && o.status == "confirmed")).map
          (fun o => o.totalPrice)).sum) ∧
    ((∀ o ∈ db.orders, o.userId = userId → o.status ≠ "confirmed") →
      get_user_stats db userId = (0, 0)) := by
  have hmain : get_user_stats db userId =
      (((db.orders.filter (fun o => o.userId == userId && o.status == "confirmed")).map
          (fun o => o.quantity)).sum,
        ((db.orders.filter (fun o => o.userId == userId && o.status == "confirmed")).map
          (fun o => o.totalPrice)).sum) := by
    rw [get_user_stats]
    cases hsel : (db.orders.filter (fun o => o.userId == userId && o.status == "confirmed")).isEmpty
    · simp only [hsel, Bool.false_eq_true, if_false]
      rw [Prod.ext_iff]
      constructor
      · split <;> simp_all
      · split <;> simp_all
    · rw [List.isEmpty_iff] at hsel
      simp [hsel]
  refine ⟨hmain, fun hnone => ?_⟩
  rw [hmain]
  have hsel : db.orders.filter (fun o => o.userId == userId && o.status == "confirmed") = [] := by
    rw [List.filter_eq_nil_iff]
    intro o ho
    have := hnone o ho
    simp only [Bool.and_eq_true, beq_iff_eq]
    tauto
  rw [hsel]
  rfl

/-- Witness for C9: a buyer with one pending and one rejected order gets (0, 0). -/
theorem get_user_stats_confirmed_only_witness :
    get_user_stats
      ⟨[], [], [⟨1, 7, "u", "P (V)", 2, 50, "d", none, "pending"⟩,
        ⟨2, 7, "u", "P (V)", 1, 25, "d", none, "rejected"⟩], 1, 1, 3⟩ 7 = (0, 0) :=
  (get_user_stats_confirmed_only
    ⟨[], [], [⟨1, 7, "u", "P (V)", 2, 50, "d", none, "pending"⟩,
      ⟨2, 7, "u", "P (V)", 1, 25, "d", none, "rejected"⟩], 1, 1, 3⟩ 7).2
    (by decide)

/-! ### C10: the negative-quantity branch of admin_save_variant is dead code -/

/-- C10. The digits-only check runs before the sign check, so the parsed restock
quantity is never negative and the negativity rejection is unreachable; an
input quantity of `0` is accepted, creates a quantity-0 variant on a fresh
pair, and the buyer-facing variant listing never shows a quantity-0 variant. -/
theorem admin_zero_quantity_accepted_negative_unreachable (text : String) (db : DBState)
    (productId : Nat) (name : String)
    (hfresh : db.variants.all (fun v => !(byVariantKey productId name v)) = true) :
    admin_save_variant text ≠ .negativeQty ∧
    admin_save_variant "Arbuz | 0" = .saved "Arbuz" 0 ∧
    variantQtyByName (upsert_variant db productId name 0) productId name = some 0 ∧
    (∀ v ∈ fetch_product_variants (upsert_variant db productId name 0) productId,
      v.name ≠ name) ∧
    (∀ (db' : DBState) (pid : Nat), ∀ v ∈ fetch_product_variants db' pid, 0 < v.quantity) := by
  have hdead : ∀ parts : List (List Char), admin_parse_parts parts ≠ .negativeQty := by
    intro parts
    match parts with
    | [] => simp [admin_parse_parts]
    | [a] => simp [admin_parse_parts]
    | a :: b :: c :: rest => simp [admin_parse_parts]
    | [variantName, qtyText] =>
      rw [admin_parse_parts]
      cases hdig : pyIsDigit qtyText
      · simp [hdig]
      · have hnn : ¬((digitsVal qtyText : Int) < 0) := by
          simp only [not_lt]
          exact Int.ofNat_nonneg _
        simp [hdig, hnn]
  have hlist : ∀ (db' : DBState) (pid : Nat), ∀ v ∈ fetch_product_variants db' pid,
      (v.productId == pid && decide (0 < v.quantity)) = true := by
    intro db' pid v hv
    rw [fetch_product_variants, mem_sortByName, List.mem_filter] at hv
    exact hv.2
  refine ⟨hdead _, by decide, ?_, ?_, ?_⟩
  · exact (upsert_variant_accumulates db productId name 0 0 hfresh le_rfl le_rfl).1
  · intro v hv
    have hkey := hlist _ _ v hv
    rw [fetch_product_variants, mem_sortByName, List.mem_filter] at hv
    have hv' := hv.1
    rw [upsert_variant, if_neg] at hv'
    · simp only [] at hv'
      rw [List.mem_append] at hv'
      rcases hv' with hold | hnew
      · have hfresh' := List.all_eq_true.mp hfresh v hold
        simp only [Bool.not_eq_true', byVariantKey, Bool.and_eq_true, beq_iff_eq,
          Bool.and_eq_false_iff, beq_eq_false_iff_ne, ne_eq] at hfresh'
        simp only [Bool.and_eq_true, beq_iff_eq] at hkey
        intro hname
        rcases hfresh' with h | h
        · exact h hkey.1
        · exact h hname
      · simp only [List.mem_singleton] at hnew
        subst hnew
        simp only [Bool.and_eq_true, decide_eq_true_eq] at hkey
        exact absurd hkey.2 (by norm_num)
    · rw [Bool.not_eq_true, List.any_eq_false]
      intro v' hv'
      have := List.all_eq_true.mp hfresh v' hv'
      simp only [Bool.not_eq_true'] at this
      simp [this]
  · intro db' pid v hv
    have := hlist db' pid v hv
    simp only [Bool.and_eq_true, decide_eq_true_eq] at this
    exact this.2

/-- Witness for C10 at a concrete fresh database. -/
theorem admin_zero_quantity_accepted_witness :
    admin_save_variant "Truskawka | 7" ≠ AdminReply.negativeQty ∧
    admin_save_variant "Arbuz | 0" = .saved "Arbuz" 0 ∧
    variantQtyByName (upsert_variant ⟨[], [], [], 1, 1, 1⟩ 1 "Mięta" 0) 1 "Mięta" = some 0 ∧
    (∀ v ∈ fetch_product_variants (upsert_variant ⟨[], [], [], 1, 1, 1⟩ 1 "Mięta" 0) 1,
      v.name ≠ "Mięta") ∧
    (∀ (db' : DBState) (pid : Nat), ∀ v ∈ fetch_product_variants db' pid, 0 < v.quantity) :=
  admin_zero_quantity_accepted_negative_unreachable "Truskawka | 7" ⟨[], [], [], 1, 1, 1⟩ 1
    "Mięta" (by decide)

/-! ### C3: administrator decisions overwrite the status unconditionally -/

/-- The stored status of an order. -/
def orderStatus (db : DBState) (orderId : Nat) : Option String :=
  (db.orders.find? (byOrderId orderId)).map (fun o => o.status)

/-- The identifiers of all order rows. -/
def orderIds (db : DBState) : List Nat :=
  db.orders.map (fun o => o.id)

/-- A database holding one already-confirmed order. -/
def dbDecided : DBState :=
  ⟨[], [], [⟨1, 7, "jan", "P (V)", 1, 10, "d", none, "confirmed"⟩], 1, 1, 2⟩

/-- Counterexample to C3 as stated: `update_order_status` carries no guard on the
current status, so a second administrator decision event on an already-confirmed
order flips it to `rejected` — the order does transition again. -/
theorem order_decision_changes_decided_status :
    orderStatus dbDecided 1 = some "confirmed" ∧
    orderStatus (process_order_decision dbDecided "reject" 1).1 1 = some "rejected" ∧
    some ("rejected" : String) ≠ some ("confirmed" : String) :=
  ⟨rfl, rfl, by decide⟩

theorem statusUpd_id (orderId : Nat) (st : String) (o : Order) :
    byOrderId orderId (statusUpd orderId st o) = byOrderId orderId o := by
  rw [statusUpd]
  split
  · simp_all [byOrderId]
  · rfl

/-- C3 amended. An administrator decision event sets the order's status to
`confirmed` (confirm action) or `rejected` (any other action) regardless of the
order's current status — a later decision can overwrite an earlier one — and no
order-ledger operation removes an order row: the decision update preserves the
row identifiers exactly and order creation only appends a fresh identifier. -/
theorem order_decisions_overwrite_never_delete (db : DBState) (action : String)
    (orderId : Nat) (status : String) (userId : Int)
    (username productName deliveryMethod : String) (quantity : Int) (totalPrice : ℚ)
    (address : Option String) :
    orderIds (update_order_status db orderId status).1 = orderIds db ∧
    (orderId ∈ orderIds db →
      orderStatus (process_order_decision db action orderId).1 orderId =
        some (if action == "confirm" then "confirmed" else "rejected")) ∧
    orderIds (create_order db userId username productName quantity totalPrice deliveryMethod
      address).1 = orderIds db ++ [db.nextOrderId] := by
  have hids : ∀ st : String, orderIds (update_order_status db orderId st).1 = orderIds db := by
    intro st
    rw [update_order_status]
    cases hfind : db.orders.find? (byOrderId orderId) with
    | none => rfl
    | some o =>
      simp only [orderIds, List.map_map]
      apply List.map_congr_left
      intro a _
      rw [Function.comp_apply]
      simp only [statusUpd]
      split
      · rfl
      · rfl
  refine ⟨hids status, fun hmem => ?_, ?_⟩
  · rw [process_order_decision, update_order_status]
    cases hfind : db.orders.find? (byOrderId orderId) with
    | none =>
      exfalso
      rw [orderIds] at hmem
      rw [List.find?_eq_none] at hfind
      rcases List.mem_map.mp hmem with ⟨o, ho, hid⟩
      exact hfind o ho (by simp [byOrderId, hid])
    | some o =>
      have hpo : byOrderId orderId o = true := List.find?_some hfind
      simp only [orderStatus]
      rw [find?_map_self _ _ (statusUpd_id orderId _), hfind]
      simp [statusUpd, hpo]
  · rw [create_order, orderIds, orderIds]
    simp

/-- Witness for C3 amended, re-deciding the already-confirmed order. -/
theorem order_decisions_overwrite_witness :
    orderIds (update_order_status dbDecided 1 "rejected").1 = orderIds dbDecided ∧
    (1 ∈ orderIds dbDecided →
      orderStatus (process_order_decision dbDecided "reject" 1).1 1 =
        some (if "reject" == "confirm" then "confirmed" else "rejected")) ∧
    orderIds (create_order dbDecided 7 "jan" "P (V)" 1 10 "d" none).1 =
      orderIds dbDecided ++ [dbDecided.nextOrderId] :=
  order_decisions_overwrite_never_delete dbDecided "reject" 1 "rejected" 7 "jan" "P (V)" "d" 1
    10 none

/-! ### C1: sequences of reservations never oversell -/

/-- Running a sequence of `decrement_variant_stock` calls against one variant,
collecting the success reports.  Any interleaving of concurrent reservations is
some such sequence, because each reservation is a single atomic statement. -/
def runReserves (vs : List Variant) (variantId : Nat) : List Int → List Variant × List Bool
  | [] => (vs, [])
  | q :: qs =>
    let r := decrement_variant_stock vs variantId q
    let rest := runReserves r.1 variantId qs
    (rest.1, r.2 :: rest.2)

/-- The specification-level ledger: a call succeeds exactly when the remaining
quantity covers it, and only then is the quantity reduced. -/
def simulateReserves (qty : Int) : List Int → List Bool
  | [] => []
  | q :: qs => decide (q ≤ qty) :: simulateReserves (if q ≤ qty then qty - q else qty) qs

/-- The total quantity taken by the successful calls of the sequence. -/
def successWeight (qty : Int) : List Int → Int
  | [] => 0
  | q :: qs => if q ≤ qty then q + successWeight (qty - q) qs else successWeight qty qs

theorem decUpd_id (variantId : Nat) (q : Int) (v : Variant) :
    ((decUpd variantId q v).id == variantId) = (v.id == variantId) := by
  rw [decUpd]
  split
  · rfl
  · rfl

/-- One conditional decrement, seen through the unique row of the variant:
the touched-row filter and the updated table. -/
theorem decrement_spec (vs : List Variant) (v : Variant) (variantId : Nat) (q : Int)
    (hv : vs.filter (fun w => w.id == variantId) = [v]) :
    (decrement_variant_stock vs variantId q).1.filter (fun w => w.id == variantId)
      = [if q ≤ v.quantity then { v with quantity := v.quantity - q } else v] ∧
    (decrement_variant_stock vs variantId q).2 = decide (q ≤ v.quantity) := by
  have hvkey : (v.id == variantId) = true := by
    have : v ∈ vs.filter (fun w => w.id == variantId) := by rw [hv]; exact List.mem_singleton.mpr rfl
    exact (List.mem_filter.mp this).2
  have hsplit : vs.filter (decHit variantId q) =
      (vs.filter (fun w => w.id == variantId)).filter (fun w => decide (q ≤ w.quantity)) := by
    rw [← filter_conj]
    rfl
  constructor
  · rw [decrement_variant_stock]
    simp only []
    rw [filter_map_self _ _ (decUpd_id variantId q), hv]
    simp only [List.map_cons, List.map_nil]
    congr 1
    rw [decUpd, decHit, hvkey]
    by_cases hq : q ≤ v.quantity
    · simp [hq]
    · simp [hq]
  · rw [decrement_variant_stock]
    simp only []
    rw [hsplit, hv]
    by_cases hq : q ≤ v.quantity
    · simp [List.filter_cons, hq]
    · simp [List.filter_cons, hq]

/-- The remaining quantity after the simulated sequence is `qty` minus the
weight of the successful calls. -/
theorem successWeight_le (qty : Int) (qs : List Int) (h : 0 ≤ qty) :
    successWeight qty qs ≤ qty ∧ 0 ≤ qty - successWeight qty qs := by
  induction qs generalizing qty with
  | nil => simp [successWeight, h]
  | cons q qs ih =>
    rw [successWeight]
    by_cases hq : q ≤ qty
    · have h' : 0 ≤ qty - q := by omega
      have := ih (qty - q) h'
      rw [if_pos hq]
      omega
    · have := ih qty h
      rw [if_neg hq]
      omega

/-- C1. Against a variant present exactly once in the table with a non-negative
quantity, a sequence of positive reservation calls behaves like the
specification ledger: each call reports success iff the quantity at that moment
covers it (equivalently, iff the conditional update touched exactly one row),
the weights of the successful calls sum to at most the initial quantity, and
the final quantity is the initial quantity minus that sum, hence never
negative. -/
theorem reserve_sequence_no_oversell (vs : List Variant) (v : Variant) (variantId : Nat)
    (qs : List Int)
    (hv : vs.filter (fun w => w.id == variantId) = [v]) (hQ : 0 ≤ v.quantity)
    (hpos : ∀ q ∈ qs, 0 < q) :
    (runReserves vs variantId qs).2 = simulateReserves v.quantity qs ∧
    (runReserves vs variantId qs).1.filter (fun w => w.id == variantId)
      = [{ v with quantity := v.quantity - successWeight v.quantity qs }] ∧
    successWeight v.quantity qs ≤ v.quantity ∧
    0 ≤ v.quantity - successWeight v.quantity qs ∧
    (∀ q : Int, (decrement_variant_stock vs variantId q).2 = true ↔
      (q ≤ v.quantity ∧ (vs.filter (decHit variantId q)).length = 1)) := by
  have hsingle : ∀ q : Int, (decrement_variant_stock vs variantId q).2 = true ↔
      (q ≤ v.quantity ∧ (vs.filter (decHit variantId q)).length = 1) := by
    intro q
    have h2 := (decrement_spec vs v variantId q hv).2
    constructor
    · intro hok
      rw [h2, decide_eq_true_eq] at hok
      refine ⟨hok, ?_⟩
      have hbeq : ((vs.filter (decHit variantId q)).length == 1) = true := by
        have hr : (decrement_variant_stock vs variantId q).2 =
            ((vs.filter (decHit variantId q)).length == 1) := rfl
        rw [← hr, h2]
        exact decide_eq_true hok
      rw [beq_iff_eq] at hbeq
      exact hbeq
    · intro ⟨hq, hlen⟩
      rw [decrement_variant_stock]
      simp [hlen]
  have hmain : ∀ qs : List Int, ∀ vs : List Variant, ∀ v : Variant,
      vs.filter (fun w => w.id == variantId) = [v] → 0 ≤ v.quantity →
      (runReserves vs variantId qs).2 = simulateReserves v.quantity qs ∧
      (runReserves vs variantId qs).1.filter (fun w => w.id == variantId)
        = [{ v with quantity := v.quantity - successWeight v.quantity qs }] := by
    intro qs
    induction qs with
    | nil =>
      intro vs v hv hQ
      refine ⟨rfl, ?_⟩
      rw [runReserves, successWeight]
      simpa using hv
    | cons q qs ih =>
      intro vs v hv hQ
      have hstep := decrement_spec vs v variantId q hv
      by_cases hq : q ≤ v.quantity
      · have hv1 : (decrement_variant_stock vs variantId q).1.filter
            (fun w => w.id == variantId) = [{ v with quantity := v.quantity - q }] := by
          rw [hstep.1, if_pos hq]
        have hQ1 : 0 ≤ ({ v with quantity := v.quantity - q } : Variant).quantity := by
          simp only []
          omega
        have hrest := ih (decrement_variant_stock vs variantId q).1 _ hv1 hQ1
        constructor
        · rw [runReserves]
          simp only []
          rw [hstep.2, hrest.1, simulateReserves]
          simp [hq]
        · rw [runReserves]
          simp only []
          rw [hrest.2, successWeight, if_pos hq]
          congr 2
          simp only []
          omega
      · have hv1 : (decrement_variant_stock vs variantId q).1.filter
            (fun w => w.id == variantId) = [v] := by
          rw [hstep.1, if_neg hq]
        have hrest := ih (decrement_variant_stock vs variantId q).1 v hv1 hQ
        constructor
        · rw [runReserves]
          simp only []
          rw [hstep.2, hrest.1, simulateReserves]
          simp [hq]
        · rw [runReserves]
          simp only []
          rw [hrest.2, successWeight, if_neg hq]
  have hw := successWeight_le v.quantity qs hQ
  exact ⟨(hmain qs vs v hv hQ).1, (hmain qs vs v hv hQ).2, hw.1, hw.2, hsingle⟩

/-- Witness for C1: quantity 5 against calls 3, 3, 2 — the middle call fails,
the sum of successful calls is exactly 5 and the final quantity is 0. -/
theorem reserve_sequence_no_oversell_witness :
    (runReserves [⟨1, 1, "Arbuz", 5⟩] 1 [3, 3, 2]).2 = simulateReserves 5 [3, 3, 2] ∧
    (runReserves [⟨1, 1, "Arbuz", 5⟩] 1 [3, 3, 2]).1.filter (fun w => w.id == 1)
      = [{ (⟨1, 1, "Arbuz", 5⟩ : Variant) with quantity := 5 - successWeight 5 [3, 3, 2] }] ∧
    successWeight 5 [3, 3, 2] ≤ 5 ∧
    0 ≤ 5 - successWeight 5 [3, 3, 2] ∧
    (∀ q : Int, (decrement_variant_stock [⟨1, 1, "Arbuz", 5⟩] 1 q).2 = true ↔
      (q ≤ 5 ∧ (([⟨1, 1, "Arbuz", 5⟩] : List Variant).filter (decHit 1 q)).length = 1)) :=
  reserve_sequence_no_oversell [⟨1, 1, "Arbuz", 5⟩] ⟨1, 1, "Arbuz", 5⟩ 1 [3, 3, 2]
    (by decide) (by decide) (by decide)

/-! ### C4: the two backends do not agree on the mutate-mode contract -/

theorem digit_not_ws (c : Char) (h : c.isDigit = true) : c.isWhitespace = false := by
  by_contra hws
  rw [Bool.not_eq_false] at hws
  simp only [Char.isWhitespace, Bool.or_eq_true, decide_eq_true_eq] at hws
  rcases hws with ((h1 | h1) | h1) | h1 <;> (subst h1; exact absurd h (by decide))

/-- A non-empty all-non-whitespace word splits as itself. -/
theorem pySplitWs_word (w : List Char) (hw : w ≠ [])
    (hnw : ∀ c ∈ w, c.isWhitespace = false) : pySplitWs w = [w] := by
  induction w with
  | nil => exact absurd rfl hw
  | cons c rest ih =>
    have hc : c.isWhitespace = false := hnw c (List.mem_cons_self c rest)
    rw [pySplitWs.eq_def]
    simp only [hc, Bool.false_eq_true, if_false]
    cases rest with
    | nil => rfl
    | cons d rest2 =>
      have hd : d.isWhitespace = false := hnw d (by simp)
      simp only [hd, Bool.false_eq_true, if_false]
      rw [ih (by simp) (fun c hc => hnw c (List.mem_cons_of_mem _ hc))]

/-- A list starting with a non-whitespace character splits into at least one word. -/
theorem pySplitWs_cons_ne (c : Char) (l : List Char) (hc : c.isWhitespace = false) :
    pySplitWs (c :: l) ≠ [] := by
  rw [pySplitWs.eq_def]
  simp only [hc, Bool.false_eq_true, if_false]
  cases l with
  | nil => simp
  | cons d rest =>
    cases hd : d.isWhitespace
    · simp only [hd, Bool.false_eq_true, if_false]
      cases pySplitWs (d :: rest) <;> simp
    · simp [hd]

/-- Whitespace splitting distributes over a whitespace boundary. -/
theorem pySplitWs_append (l w : List Char) :
    pySplitWs (l ++ ' ' :: w) = pySplitWs l ++ pySplitWs w := by
  induction l with
  | nil =>
    rw [List.nil_append, pySplitWs.eq_def]
    simp [pySplitWs]
  | cons c l ih =>
    cases hc : c.isWhitespace
    · rw [List.cons_append, pySplitWs.eq_def]
      simp only [hc, Bool.false_eq_true, if_false]
      cases l with
      | nil =>
        simp only [List.nil_append]
        conv_rhs => rw [pySplitWs.eq_def]
        simp only [hc, Bool.false_eq_true, if_false]
        simp [pySplitWs]
      | cons d l2 =>
        simp only [List.cons_append]
        cases hd : d.isWhitespace
        · have hne2 := pySplitWs_cons_ne d l2 hd
          simp only [hd, Bool.false_eq_true, if_false]
          rw [show d :: (l2 ++ ' ' :: w) = (d :: l2) ++ ' ' :: w from rfl]
          rw [ih]
          rcases List.exists_cons_of_ne_nil hne2 with ⟨u, us, hu⟩
          rw [hu]
          conv_rhs => rw [pySplitWs.eq_def]
          simp only [hc, Bool.false_eq_true, if_false, hd]
          rw [hu]
          rfl
        · simp only [hd, if_true]
          rw [show d :: (l2 ++ ' ' :: w) = (d :: l2) ++ ' ' :: w from rfl, ih]
          conv_rhs => rw [pySplitWs.eq_def]
          simp only [hc, Bool.false_eq_true, if_false, hd, if_true]
          rfl
    · rw [List.cons_append, pySplitWs.eq_def]
      simp only [hc, if_true]
      rw [ih]
      conv_rhs => rw [pySplitWs.eq_def]
      simp only [hc, if_true]

/-- The statement text of `upsert_variant`'s mutate-mode call: a plain `INSERT`
without `RETURNING` (main.py 206-214). -/
def insertVariantsSql : String :=
  "INSERT INTO variants (product_id, name, quantity) VALUES (?, ?, ?) ON CONFLICT(product_id, name) DO UPDATE SET quantity = variants.quantity + excluded.quantity"

/-- The statement text of the reservation's mutate-mode call: an `UPDATE`
(main.py 275). -/
def decrementVariantsSql : String :=
  "UPDATE variants SET quantity = quantity - ? WHERE id = ? AND quantity >= ?"

/-- Counterexample to C4 as stated: for the same logical one-row insert whose new
row received identifier 5, the SQLite branch of `DB.execute` returns the
identifier 5 while the PostgreSQL branch parses its `"INSERT 0 1"` status tag
and returns the affected-row count 1.  The two backends do not agree on the
mutate contract for a plain `INSERT` without `RETURNING`. -/
theorem mutate_backends_disagree_on_plain_insert :
    DB.executeMutateSqlite insertVariantsSql 5 1 = 5 ∧
    DB.executeMutatePg "INSERT 0 1" = 1 ∧
    (5 : Int) ≠ 1 :=
  ⟨by decide, by decide, by decide⟩

/-- C4 amended. The SQLite mutate branch returns `lastrowid` for a statement
containing `INSERT` and no `RETURNING` and the affected-row count otherwise; the
PostgreSQL mutate branch always returns the trailing numeric token of the
command status tag — the affected-row count — regardless of statement shape, so
the two backends agree on a plain `INSERT` only when the new row identifier
happens to equal the row count. -/
theorem mutate_mode_backend_contract (pre w : List Char) (lastrowid rowcount : Int)
    (hw : w ≠ []) (hdig : ∀ c ∈ w, c.isDigit = true) :
    DB.executeMutatePg (String.mk (pre ++ ' ' :: w)) = ((digitsVal w : Nat) : Int) ∧
    DB.executeMutateSqlite insertVariantsSql lastrowid rowcount = lastrowid ∧
    DB.executeMutateSqlite decrementVariantsSql lastrowid rowcount = rowcount := by
  refine ⟨?_, ?_, ?_⟩
  · have hnw : ∀ c ∈ w, c.isWhitespace = false := fun c hc => digit_not_ws c (hdig c hc)
    have htok : pySplitWs (String.mk (pre ++ ' ' :: w)).toList = pySplitWs pre ++ [w] := by
      have : (String.mk (pre ++ ' ' :: w)).toList = pre ++ ' ' :: w := rfl
      rw [this, pySplitWs_append, pySplitWs_word w hw hnw]
    rw [DB.executeMutatePg, htok, List.getLast?_concat]
    rcases List.exists_cons_of_ne_nil hw with ⟨c, rest, hcrest⟩
    have hcd : c.isDigit = true := hdig c (by rw [hcrest]; simp)
    have hcm : (c == '-') = false := by
      cases hbeq : c == '-'
      · rfl
      · exfalso
        have : c = '-' := by exact eq_of_beq hbeq
        subst this
        exact absurd hcd (by decide)
    have hdig' : pyIsDigit (c :: rest) = true := by
      rw [pyIsDigit]
      simp only [List.isEmpty_cons, Bool.not_false, Bool.true_and]
      rw [List.all_eq_true]
      intro x hx
      exact hdig x (by rw [hcrest]; exact hx)
    rw [hcrest]
    show (pyIntOfToken (c :: rest)).getD 0 = ((digitsVal (c :: rest) : Nat) : Int)
    rw [pyIntOfToken.eq_def]
    simp only [hcm, Bool.false_eq_true, if_false, hdig', if_true]
    rfl
  · have hcond : (DB.pyUpperIn "INSERT" insertVariantsSql &&
        !(DB.pyUpperIn "RETURNING" insertVariantsSql)) = true := by decide
    rw [DB.executeMutateSqlite, hcond]
    rfl
  · have hcond : (DB.pyUpperIn "INSERT" decrementVariantsSql &&
        !(DB.pyUpperIn "RETURNING" decrementVariantsSql)) = false := by decide
    rw [DB.executeMutateSqlite, hcond]
    simp

/-- Witness for C4 amended at the status tag `"INSERT 0 42"`. -/
theorem mutate_mode_backend_contract_witness :
    DB.executeMutatePg (String.mk ("INSERT 0".toList ++ ' ' :: ['4', '2'])) =
      ((digitsVal ['4', '2'] : Nat) : Int) ∧
    DB.executeMutateSqlite insertVariantsSql 7 1 = 7 ∧
    DB.executeMutateSqlite decrementVariantsSql 7 1 = 1 :=
  mutate_mode_backend_contract "INSERT 0".toList ['4', '2'] 7 1 (by decide) (by decide)

/-! ### C2: a failed reservation leaves no partial state behind -/

/-- Whether the advisory stock re-check at the top of `finalize_order` fails
against the database `db`: the variant is gone or its live quantity is short. -/
def advisoryFails (db : DBState) (variantId : Nat) (quantity : Int) : Bool :=
  match fetch_variant db variantId with
  | none => true
  | some (v, _) => decide (v.quantity < quantity)

/-- A reservation whose `WHERE` clause selects no row leaves the table unchanged. -/
theorem decrement_noop (vs : List Variant) (variantId : Nat) (q : Int)
    (h : vs.filter (decHit variantId q) = []) :
    (decrement_variant_stock vs variantId q).1 = vs := by
  rw [decrement_variant_stock]
  have hall := List.filter_eq_nil_iff.mp h
  conv_rhs => rw [← List.map_id vs]
  apply List.map_congr_left
  intro a ha
  have : ¬ decHit variantId q a = true := hall a ha
  rw [decUpd, if_neg this]
  rfl

/-- The buyer, session and the two database views of a lost race: the advisory
check still sees one unit, the decrement runs after a concurrent buyer took it. -/
def u0 : UserT := ⟨7, "Jan Kowalski", some "jan"⟩

def sessionAtConfirm : Session :=
  { state := some .confirming_order
    productId := some 1
    productName := some "Jednorazówka"
    price := some 25
    variantId := some 1
    variantName := some "Arbuz"
    maxQuantity := some 1
    quantity := some 1
    deliveryType := some "pickup"
    shippingMethod := none
    shippingCost := some 0
    address := some "Odbiór osobisty: Warszawa"
    phone := none
    paymentMethod := some "BLIK" }

def dbAtCheck : DBState :=
  ⟨[⟨1, "Jednorazówka", 0, 25⟩], [⟨1, 1, "Arbuz", 1⟩], [], 2, 2, 1⟩

def dbRaced : DBState :=
  ⟨[⟨1, "Jednorazówka", 0, 25⟩], [⟨1, 1, "Arbuz", 0⟩], [], 2, 2, 1⟩

/-- Counterexample to C2 as stated: when the advisory re-check passes but the
conditional decrement loses the race and touches no row, no order is created
and the session is cleared, but the buyer is shown the system-error message,
not the sold-out message the claim asserts. -/
theorem finalize_lost_race_not_sold_out_message :
    (decrement_variant_stock dbRaced.variants 1 1).2 = false ∧
    finalize_order sessionAtConfirm dbAtCheck dbRaced u0 =
      some ⟨dbRaced, clearedSession, .systemError⟩ ∧
    Output.systemError ≠ Output.soldOut :=
  ⟨by decide, rfl, by decide⟩

/-- C2 amended. If either the advisory re-check fails or the conditional
decrement affects no row, `finalize_order` creates no order row and changes no
variant quantity (its resulting database is exactly the one the decrement ran
against, given the primary-key uniqueness of the variant id), and the session
working memory is cleared; the buyer sees the sold-out message when the
advisory check failed and the system-error message when only the decrement
lost the race. -/
theorem failed_reservation_no_partial_effects (s : Session) (dbC dbR : DBState) (u : UserT)
    (r : StepRes) (vid : Nat) (q : Int)
    (hvid : s.variantId = some vid) (hq : s.quantity = some q)
    (huniq : (dbR.variants.filter (fun w => w.id == vid)).length ≤ 1)
    (hr : finalize_order s dbC dbR u = some r)
    (hfail : advisoryFails dbC vid q = true ∨
      (decrement_variant_stock dbR.variants vid q).2 = false) :
    r.db = dbR ∧ r.sess = clearedSession ∧
    (advisoryFails dbC vid q = true → r.out = .soldOut) ∧
    (advisoryFails dbC vid q = false → r.out = .systemError) := by
  cases hpid : s.productId with
  | none => rw [finalize_order] at hr; rw [hpid] at hr; exact absurd hr (by simp)
  | some pid =>
  cases hpn : s.productName with
  | none =>
    rw [finalize_order] at hr; rw [hpid, hpn] at hr; exact absurd hr (by simp)
  | some pname =>
  cases hvn : s.variantName with
  | none =>
    rw [finalize_order] at hr; rw [hpid, hpn, hvid, hvn] at hr; exact absurd hr (by simp)
  | some vname =>
  cases hpr : s.price with
  | none =>
    rw [finalize_order] at hr; rw [hpid, hpn, hvid, hvn, hq, hpr] at hr
    exact absurd hr (by simp)
  | some price =>
  cases hdt : s.deliveryType with
  | none =>
    rw [finalize_order] at hr; rw [hpid, hpn, hvid, hvn, hq, hpr, hdt] at hr
    exact absurd hr (by simp)
  | some dt =>
  rw [finalize_order] at hr
  rw [hpid, hpn, hvid, hvn, hq, hpr, hdt] at hr
  simp only [Option.some.injEq] at hr
  cases hfv : fetch_variant dbC vid with
  | none =>
    simp only [hfv] at hr
    subst hr
    have hadv : advisoryFails dbC vid q = true := by rw [advisoryFails, hfv]
    exact ⟨rfl, rfl, fun _ => rfl, fun hfalse => absurd hadv (by simp [hfalse])⟩
  | some vp =>
    simp only [hfv] at hr
    have hadv : advisoryFails dbC vid q = decide (vp.1.quantity < q) := by
      rw [advisoryFails, hfv]
    by_cases hlt : vp.1.quantity < q
    · rw [if_pos hlt] at hr
      subst hr
      refine ⟨rfl, rfl, fun _ => rfl, fun hfalse => ?_⟩
      rw [hadv] at hfalse
      simp only [decide_eq_false_iff_not] at hfalse
      exact absurd hlt hfalse
    · rw [if_neg hlt] at hr
      have hdec : (decrement_variant_stock dbR.variants vid q).2 = false := by
        rcases hfail with hadvt | h
        · exfalso
          rw [hadv] at hadvt
          simp only [decide_eq_true_eq] at hadvt
          exact hlt hadvt
        · exact h
      rw [hdec] at hr
      simp only [Bool.not_false, if_true] at hr
      subst hr
      have hzero : dbR.variants.filter (decHit vid q) = [] := by
        have hconj : dbR.variants.filter (decHit vid q) =
            (dbR.variants.filter (fun w => w.id == vid)).filter
              (fun w => decide (q ≤ w.quantity)) := by
          rw [← filter_conj]
          rfl
        have hle : (dbR.variants.filter (decHit vid q)).length ≤ 1 := by
          rw [hconj]
          exact le_trans (List.length_filter_le _ _) huniq
        have hne1 : ((dbR.variants.filter (decHit vid q)).length == 1) = false := hdec
        rw [beq_eq_false_iff_ne] at hne1
        have : (dbR.variants.filter (decHit vid q)).length = 0 := by omega
        exact List.length_eq_zero.mp this
      have hnoop := decrement_noop dbR.variants vid q hzero
      refine ⟨?_, rfl, fun htrue => ?_, fun _ => rfl⟩
      · show ({ dbR with variants := (decrement_variant_stock dbR.variants vid q).1 }) = dbR
        rw [hnoop]
      · rw [hadv] at htrue
        simp only [decide_eq_true_eq] at htrue
        exact absurd htrue hlt

/-- Witness for C2 amended at a sold-out advisory check. -/
theorem failed_reservation_no_partial_effects_witness :
    (⟨dbRaced, clearedSession, Output.soldOut⟩ : StepRes).db = dbRaced ∧
    (⟨dbRaced, clearedSession, Output.soldOut⟩ : StepRes).sess = clearedSession ∧
    (advisoryFails dbRaced 1 1 = true →
      (⟨dbRaced, clearedSession, Output.soldOut⟩ : StepRes).out = .soldOut) ∧
    (advisoryFails dbRaced 1 1 = false →
      (⟨dbRaced, clearedSession, Output.soldOut⟩ : StepRes).out = .systemError) :=
  failed_reservation_no_partial_effects sessionAtConfirm dbRaced dbRaced u0
    ⟨dbRaced, clearedSession, Output.soldOut⟩ 1 1 rfl rfl (by decide) rfl
    (Or.inl (by decide))

/-! ### C7 and C8: reachability invariants of the checkout machine -/

/-- On the shipping branch the stored carrier and surcharge always form one of
the three fixed pairs set by `choose_shipping_method` / `choose_dpd_option`. -/
def shipCostConsistent (s : Session) : Prop :=
  (s.shippingMethod = some "InPost" ∧ s.shippingCost = some 12) ∨
  (s.shippingMethod = some "DPD Punkt" ∧ s.shippingCost = some 6) ∨
  (s.shippingMethod = some "DPD Automat" ∧ s.shippingCost = some 10)

/-- At the payment and confirmation states the surcharge is committed: zero with
no carrier on the pickup branch, or one of the fixed carrier surcharges on the
shipping branch. -/
def costConsistent (s : Session) : Prop :=
  (s.shippingMethod = none ∧ s.shippingCost = some 0 ∧
    (∃ d, s.deliveryType = some d ∧ d ≠ "ship")) ∨
  (shipCostConsistent s ∧ s.deliveryType = some "ship")

/-- The invariant carried through every reachable session. -/
def SessInv (s : Session) : Prop :=
  match s.state with
  | some .choosing_pickup_city => ∃ d, s.deliveryType = some d ∧ d ≠ "ship"
  | some .choosing_shipping => s.deliveryType = some "ship"
  | some .choosing_dpd_option => s.deliveryType = some "ship"
  | some .entering_address => s.deliveryType = some "ship" ∧ shipCostConsistent s
  | some .entering_phone => s.deliveryType = some "ship" ∧ shipCostConsistent s
  | some .choosing_payment => costConsistent s
  | some .confirming_order => costConsistent s
  | _ => True

/-- Everything the later theorems need about one `finalize_order` run: the
session always comes back cleared, and the output is sold-out, system-error or
an accepted order whose identifier is the fresh order id and whose recorded
total is quantity times unit price plus the stored surcharge — with the created
row carrying exactly that total. -/
theorem finalize_order_cases (s : Session) (dbC dbR : DBState) (u : UserT) (r : StepRes)
    (h : finalize_order s dbC dbR u = some r) :
    r.sess = clearedSession ∧
    (r.out = .soldOut ∨ r.out = .systemError ∨
      (∃ q price, s.quantity = some q ∧ s.price = some price ∧
        r.out = .orderAccepted dbR.nextOrderId ((q : ℚ) * price + s.shippingCost.getD 0) ∧
        ∃ o, o ∈ r.db.orders ∧ o.id = dbR.nextOrderId ∧
          o.totalPrice = ((q : ℚ) * price + s.shippingCost.getD 0))) := by
  cases hpid : s.productId with
  | none => rw [finalize_order] at h; rw [hpid] at h; exact absurd h (by simp)
  | some pid =>
  cases hpn : s.productName with
  | none => rw [finalize_order] at h; rw [hpid, hpn] at h; exact absurd h (by simp)
  | some pname =>
  cases hvid : s.variantId with
  | none => rw [finalize_order] at h; rw [hpid, hpn, hvid] at h; exact absurd h (by simp)
  | some vid =>
  cases hvn : s.variantName with
  | none => rw [finalize_order] at h; rw [hpid, hpn, hvid, hvn] at h; exact absurd h (by simp)
  | some vname =>
  cases hq : s.quantity with
  | none =>
    rw [finalize_order] at h; rw [hpid, hpn, hvid, hvn, hq] at h; exact absurd h (by simp)
  | some q =>
  cases hpr : s.price with
  | none =>
    rw [finalize_order] at h; rw [hpid, hpn, hvid, hvn, hq, hpr] at h
    exact absurd h (by simp)
  | some price =>
  cases hdt : s.deliveryType with
  | none =>
    rw [finalize_order] at h; rw [hpid, hpn, hvid, hvn, hq, hpr, hdt] at h
    exact absurd h (by simp)
  | some dt =>
  rw [finalize_order] at h
  rw [hpid, hpn, hvid, hvn, hq, hpr, hdt] at h
  simp only [Option.some.injEq] at h
  cases hfv : fetch_variant dbC vid with
  | none =>
    simp only [hfv] at h
    subst h
    exact ⟨rfl, Or.inl rfl⟩
  | some vp =>
    simp only [hfv] at h
    by_cases hlt : vp.1.quantity < q
    · rw [if_pos hlt] at h
      subst h
      exact ⟨rfl, Or.inl rfl⟩
    · rw [if_neg hlt] at h
      cases hdec : (decrement_variant_stock dbR.variants vid q).2 with
      | false =>
        rw [hdec] at h
        simp only [Bool.not_false, if_true] at h
        subst h
        exact ⟨rfl, Or.inr (Or.inl rfl)⟩
      | true =>
        rw [hdec] at h
        simp only [Bool.not_true, Bool.false_eq_true, if_false] at h
        subst h
        refine ⟨rfl, Or.inr (Or.inr ⟨q, price, rfl, rfl, rfl, ?_⟩)⟩
        refine ⟨_, List.mem_append_right _ (List.mem_singleton.mpr rfl), rfl, rfl⟩

theorem sessInv_cleared : SessInv clearedSession := by
  simp [SessInv, clearedSession]

theorem sessInv_start_order (db : DBState) (s : Session) (h : SessInv s) :
    SessInv (start_order db s).sess := by
  rw [start_order]
  split
  · exact h
  · simp [SessInv]

theorem sessInv_choose_product (db : DBState) (s : Session) (pid : Nat) (h : SessInv s) :
    SessInv (choose_product db s pid).sess := by
  rw [choose_product.eq_def]
  split
  · exact h
  · split
    · exact h
    · simp [SessInv]

theorem choose_variant_state (db : DBState) (s : Session) (t : String) :
    (choose_variant db s t).sess = clearedSession ∨ (choose_variant db s t).sess = s ∨
    (choose_variant db s t).sess.state = some .entering_quantity := by
  rw [choose_variant.eq_def]
  (repeat' split) <;> simp

theorem sessInv_choose_variant (db : DBState) (s : Session) (t : String) (h : SessInv s) :
    SessInv (choose_variant db s t).sess := by
  rcases choose_variant_state db s t with hth | hth | hth
  · rw [hth]; exact sessInv_cleared
  · rw [hth]; exact h
  · simp [SessInv, hth]

theorem enter_quantity_state (db : DBState) (s : Session) (t : String) :
    (enter_quantity db s t).sess.state = s.state ∨
    (enter_quantity db s t).sess.state = some .choosing_delivery := by
  rw [enter_quantity.eq_def]
  (repeat' split) <;> simp

theorem sessInv_enter_quantity (db : DBState) (s : Session) (t : String)
    (hst : s.state = some .entering_quantity) : SessInv (enter_quantity db s t).sess := by
  rcases enter_quantity_state db s t with hth | hth
  · rw [hst] at hth
    simp [SessInv, hth]
  · simp [SessInv, hth]

theorem sessInv_choose_delivery (db : DBState) (s : Session) (d : String) :
    SessInv (choose_delivery db s d).sess := by
  rw [choose_delivery]
  cases hd : d == "ship"
  · simp only [hd, Bool.false_eq_true, if_false]
    simp only [SessInv]
    exact ⟨d, rfl, by simpa using hd⟩
  · simp only [hd, if_true]
    simp only [SessInv]
    have hds : d = "ship" := by simpa using hd
    simp [hds]

theorem sessInv_choose_pickup_city (db : DBState) (s : Session) (city : String)
    (h : SessInv s) (hst : s.state = some .choosing_pickup_city) :
    SessInv (choose_pickup_city db s city).sess := by
  have h' : ∃ d, s.deliveryType = some d ∧ d ≠ "ship" := by
    simpa [SessInv, hst] using h
  rw [choose_pickup_city]
  simp only [SessInv, costConsistent]
  exact Or.inl ⟨trivial, trivial, h'⟩

theorem sessInv_choose_shipping (db : DBState) (s : Session) (m : String)
    (h : SessInv s) (hst : s.state = some .choosing_shipping) :
    SessInv (choose_shipping_method db s m).sess := by
  have h' : s.deliveryType = some "ship" := by simpa [SessInv, hst] using h
  rw [choose_shipping_method]
  split
  · simp only [SessInv]
    exact h'
  · simp only [SessInv]
    exact ⟨h', Or.inl ⟨rfl, rfl⟩⟩

theorem sessInv_choose_dpd (db : DBState) (s : Session) (o : String)
    (h : SessInv s) (hst : s.state = some .choosing_dpd_option) :
    SessInv (choose_dpd_option db s o).sess := by
  have h' : s.deliveryType = some "ship" := by simpa [SessInv, hst] using h
  rw [choose_dpd_option]
  split
  · simp only [SessInv]
    exact ⟨h', Or.inr (Or.inl ⟨rfl, rfl⟩)⟩
  · simp only [SessInv]
    exact ⟨h', Or.inr (Or.inr ⟨rfl, rfl⟩)⟩

theorem sessInv_enter_address (db : DBState) (s : Session) (t : String)
    (h : SessInv s) (hst : s.state = some .entering_address) :
    SessInv (enter_address db s t).sess := by
  have h' : s.deliveryType = some "ship" ∧ shipCostConsistent s := by
    simpa [SessInv, hst] using h
  rw [enter_address]
  split
  · simpa [SessInv, hst] using h
  · simp only [SessInv]
    exact ⟨h'.1, h'.2⟩

theorem sessInv_enter_phone (db : DBState) (s : Session) (t : String)
    (h : SessInv s) (hst : s.state = some .entering_phone) :
    SessInv (enter_phone db s t).sess := by
  have h' : s.deliveryType = some "ship" ∧ shipCostConsistent s := by
    simpa [SessInv, hst] using h
  rw [enter_phone]
  split
  · simpa [SessInv, hst] using h
  · simp only [SessInv, costConsistent]
    exact Or.inr ⟨h'.2, h'.1⟩

theorem sessInv_choose_payment (db : DBState) (s : Session) (m : String)
    (h : SessInv s) (hst : s.state = some .choosing_payment) :
    SessInv (choose_payment db s m).sess := by
  have h' : costConsistent s := by simpa [SessInv, hst] using h
  rw [choose_payment.eq_def]
  split
  · simp only [SessInv]
    exact h'
  · simp only [SessInv, hst]
    exact h'

theorem sessInv_confirm (db : DBState) (s : Session) (a : ConfirmAction) (u : UserT)
    (h : SessInv s) : SessInv (process_order_confirmation db s a u).sess := by
  rw [process_order_confirmation.eq_def]
  split
  · split
    · next r hr =>
      rw [(finalize_order_cases _ _ _ _ _ hr).1]
      exact sessInv_cleared
    · exact h
  · exact sessInv_cleared
  · exact sessInv_cleared

/-- The invariant is preserved by every step of the checkout machine. -/
theorem inv_step (db : DBState) (s : Session) (e : Event) (u : UserT) (h : SessInv s) :
    SessInv (step db s e u).sess := by
  cases e with
  | msgText t =>
    rw [step]
    by_cases ht : (t == "🛍️ Kupuję") = true
    · rw [if_pos ht]
      exact sessInv_start_order db s h
    · rw [if_neg ht]
      cases hst : s.state with
      | none => exact h
      | some st =>
        cases st with
        | choosing_variant => exact sessInv_choose_variant db s t h
        | entering_quantity => exact sessInv_enter_quantity db s t hst
        | entering_address => exact sessInv_enter_address db s t h hst
        | entering_phone => exact sessInv_enter_phone db s t h hst
        | choosing_product => exact h
        | choosing_delivery => exact h
        | choosing_shipping => exact h
        | choosing_dpd_option => exact h
        | choosing_pickup_city => exact h
        | choosing_payment => exact h
        | confirming_order => exact h
  | cbProduct pid =>
    rw [step]
    split
    · exact sessInv_choose_product db s pid h
    · exact h
  | cbDelivery d =>
    rw [step]
    split
    · exact sessInv_choose_delivery db s d
    · exact h
  | cbPickupCity city =>
    rw [step]
    split
    · next hst => exact sessInv_choose_pickup_city db s city h hst
    · exact h
  | cbShipping m =>
    rw [step]
    split
    · next hst => exact sessInv_choose_shipping db s m h hst
    · exact h
  | cbDpdOption o =>
    rw [step]
    split
    · next hst => exact sessInv_choose_dpd db s o h hst
    · exact h
  | cbPayment m =>
    rw [step]
    split
    · next hst => exact sessInv_choose_payment db s m h hst
    · exact h
  | cbConfirm a =>
    rw [step]
    split
    · exact sessInv_confirm db s a u h
    · exact h

/-- Every reachable session satisfies the invariant. -/
theorem reach_inv (s : Session) (h : Reach s) : SessInv s := by
  induction h with
  | init => exact sessInv_cleared
  | step db e user hr ih => exact inv_step db _ e user ih

theorem start_order_out (db : DBState) (s : Session) : (start_order db s).out = .other := by
  rw [start_order]; split <;> rfl

theorem choose_product_out (db : DBState) (s : Session) (pid : Nat) :
    (choose_product db s pid).out = .other := by
  rw [choose_product.eq_def]
  split
  · rfl
  · split <;> rfl

theorem choose_variant_out (db : DBState) (s : Session) (t : String) :
    (choose_variant db s t).out = .other := by
  rw [choose_variant.eq_def]
  (repeat' split) <;> rfl

theorem enter_quantity_out (db : DBState) (s : Session) (t : String) :
    (enter_quantity db s t).out = .other := by
  rw [enter_quantity.eq_def]
  (repeat' split) <;> rfl

theorem choose_delivery_out (db : DBState) (s : Session) (d : String) :
    (choose_delivery db s d).out = .other := by
  rw [choose_delivery]; split <;> rfl

theorem choose_shipping_out (db : DBState) (s : Session) (m : String) :
    (choose_shipping_method db s m).out = .other := by
  rw [choose_shipping_method]; split <;> rfl

theorem choose_dpd_out (db : DBState) (s : Session) (o : String) :
    (choose_dpd_option db s o).out = .other := by
  rw [choose_dpd_option]; split <;> rfl

theorem enter_address_out (db : DBState) (s : Session) (t : String) :
    (enter_address db s t).out = .other := by
  rw [enter_address]; split <;> rfl

theorem choose_payment_out (db : DBState) (s : Session) (m : String) :
    (choose_payment db s m).out = .other := by
  rw [choose_payment.eq_def]
  split <;> rfl

/-- The two possible outcomes of `enter_phone`. -/
theorem enter_phone_shape (db : DBState) (s : Session) (t : String) :
    enter_phone db s t = ⟨db, s, .other⟩ ∨
    enter_phone db s t =
      ⟨db,
        { s with
            phone := some (String.mk (pyStrip t.toList)), state := some .choosing_payment },
        .promptPayment false⟩ := by
  rw [enter_phone]
  split
  · exact Or.inl rfl
  · exact Or.inr rfl

/-- Classification of one step: besides silent/expired responses, the only
interesting steps are the pickup-city transition, the phone transition and a
finalization. -/
theorem step_out_cases (db : DBState) (s : Session) (e : Event) (u : UserT) :
    (step db s e u).out = .other ∨ (step db s e u).out = .expired ∨
    (s.state = some .choosing_pickup_city ∧ ∃ city, e = .cbPickupCity city ∧
      step db s e u = choose_pickup_city db s city) ∨
    (s.state = some .entering_phone ∧ ∃ t, e = .msgText t ∧
      step db s e u = enter_phone db s t) ∨
    (s.state = some .confirming_order ∧ ∃ r, finalize_order s db db u = some r ∧
      step db s e u = r) := by
  cases e with
  | msgText t =>
    rw [step]
    by_cases ht : (t == "🛍️ Kupuję") = true
    · rw [if_pos ht]
      exact Or.inl (start_order_out db s)
    · rw [if_neg ht]
      cases hst : s.state with
      | none => exact Or.inl rfl
      | some st =>
        cases st with
        | choosing_variant => exact Or.inl (choose_variant_out db s t)
        | entering_quantity => exact Or.inl (enter_quantity_out db s t)
        | entering_address => exact Or.inl (enter_address_out db s t)
        | entering_phone =>
          exact Or.inr (Or.inr (Or.inr (Or.inl ⟨rfl, t, rfl, rfl⟩)))
        | choosing_product => exact Or.inl rfl
        | choosing_delivery => exact Or.inl rfl
        | choosing_shipping => exact Or.inl rfl
        | choosing_dpd_option => exact Or.inl rfl
        | choosing_pickup_city => exact Or.inl rfl
        | choosing_payment => exact Or.inl rfl
        | confirming_order => exact Or.inl rfl
  | cbProduct pid =>
    rw [step]
    split
    · exact Or.inl (choose_product_out db s pid)
    · exact Or.inr (Or.inl rfl)
  | cbDelivery d =>
    rw [step]
    split
    · exact Or.inl (choose_delivery_out db s d)
    · exact Or.inr (Or.inl rfl)
  | cbPickupCity city =>
    rw [step]
    split
    · next hst => exact Or.inr (Or.inr (Or.inl ⟨hst, city, rfl, rfl⟩))
    · exact Or.inr (Or.inl rfl)
  | cbShipping m =>
    rw [step]
    split
    · exact Or.inl (choose_shipping_out db s m)
    · exact Or.inr (Or.inl rfl)
  | cbDpdOption o =>
    rw [step]
    split
    · exact Or.inl (choose_dpd_out db s o)
    · exact Or.inr (Or.inl rfl)
  | cbPayment m =>
    rw [step]
    split
    · exact Or.inl (choose_payment_out db s m)
    · exact Or.inr (Or.inl rfl)
  | cbConfirm a =>
    rw [step]
    split
    · next hst =>
      cases a with
      | yes =>
        rw [process_order_confirmation.eq_def]
        cases hfin : finalize_order s db db u with
        | none => exact Or.inl rfl
        | some r => exact Or.inr (Or.inr (Or.inr (Or.inr ⟨hst, r, rfl, rfl⟩)))
      | no => exact Or.inl rfl
      | cancel => exact Or.inl rfl
    · exact Or.inr (Or.inl rfl)

/-- C8. In any reachable session, whenever a step offers the payment keyboard,
cash is on it exactly when the session took the pickup branch (its recorded
delivery type is not the shipping choice); shipping-branch sessions are offered
electronic payment (BLIK) only. -/
theorem cash_payment_iff_pickup_branch (db : DBState) (s : Session) (e : Event) (u : UserT)
    (b : Bool) (hs : Reach s) (hout : (step db s e u).out = .promptPayment b) :
    ∃ d, (step db s e u).sess.deliveryType = some d ∧
      (("Gotówka" ∈ payment_keyboard b) ↔ d ≠ "ship") ∧ "BLIK" ∈ payment_keyboard b := by
  have hinv := reach_inv s hs
  rcases step_out_cases db s e u with hsh | hsh | ⟨hst, city, he, hsh⟩ | ⟨hst, t, he, hsh⟩ |
    ⟨hst, r, hfin, hsh⟩
  · rw [hsh] at hout; exact absurd hout (by simp)
  · rw [hsh] at hout; exact absurd hout (by simp)
  · rw [hsh] at hout
    have hout' : Output.promptPayment true = Output.promptPayment b := hout
    injection hout' with hb
    subst hb
    obtain ⟨d, hd, hdne⟩ : ∃ d, s.deliveryType = some d ∧ d ≠ "ship" := by
      simpa [SessInv, hst] using hinv
    refine ⟨d, ?_, ⟨fun _ => hdne, fun _ => by decide⟩, by decide⟩
    rw [hsh]
    exact hd
  · rcases enter_phone_shape db s t with hph | hph
    · rw [hsh, hph] at hout
      exact absurd hout (by simp)
    · rw [hsh, hph] at hout
      have hout' : Output.promptPayment false = Output.promptPayment b := hout
      injection hout' with hb
      subst hb
      have hship : s.deliveryType = some "ship" ∧ shipCostConsistent s := by
        simpa [SessInv, hst] using hinv
      refine ⟨"ship", ?_, ?_, by decide⟩
      · rw [hsh, hph]
        exact hship.1
      · constructor
        · intro hmem
          exact absurd hmem (by decide)
        · intro hne
          exact absurd rfl hne
  · obtain ⟨hsess, hshape⟩ := finalize_order_cases s db db u r hfin
    rw [hsh] at hout
    rcases hshape with h1 | h1 | ⟨q, price, hq, hpr, houtEq, hrest⟩
    · rw [h1] at hout; exact absurd hout (by simp)
    · rw [h1] at hout; exact absurd hout (by simp)
    · rw [houtEq] at hout; exact absurd hout (by simp)

/-- C7. In any reachable session, whenever a step reports an accepted order, the
recorded total equals quantity times unit price plus the surcharge of the
delivery/shipping choice committed in the session — pickup 0, InPost 12,
DPD-to-point 6, DPD-to-locker 10, the two DPD surcharges distinct — and the
created order row carries exactly that total. -/
theorem order_total_price_formula (db : DBState) (s : Session) (e : Event) (u : UserT)
    (oid : Nat) (total : ℚ) (hs : Reach s)
    (hout : (step db s e u).out = .orderAccepted oid total) :
    ∃ q price c, s.quantity = some q ∧ s.price = some price ∧
      choiceOfSession s = some c ∧
      total = (q : ℚ) * price + surcharge c ∧
      (∃ o, o ∈ (step db s e u).db.orders ∧ o.id = oid ∧ o.totalPrice = total) ∧
      surcharge .pickup = 0 ∧ surcharge .inpost = 12 ∧ surcharge .dpdPoint = 6 ∧
      surcharge .dpdLocker = 10 ∧ surcharge .dpdPoint ≠ surcharge .dpdLocker := by
  have hinv := reach_inv s hs
  rcases step_out_cases db s e u with hsh | hsh | ⟨hst, city, he, hsh⟩ | ⟨hst, t, he, hsh⟩ |
    ⟨hst, r, hfin, hsh⟩
  · rw [hsh] at hout; exact absurd hout (by simp)
  · rw [hsh] at hout; exact absurd hout (by simp)
  · rw [hsh] at hout
    have hout' : Output.promptPayment true = Output.orderAccepted oid total := hout
    exact absurd hout' (by simp)
  · rcases enter_phone_shape db s t with hph | hph
    · rw [hsh, hph] at hout
      exact absurd hout (by simp)
    · rw [hsh, hph] at hout
      have hout' : Output.promptPayment false = Output.orderAccepted oid total := hout
      exact absurd hout' (by simp)
  · obtain ⟨hsess, hshape⟩ := finalize_order_cases s db db u r hfin
    rw [hsh] at hout
    rcases hshape with h1 | h1 | ⟨q, price, hq, hpr, houtEq, o, homem, hoid, htot⟩
    · rw [h1] at hout; exact absurd hout (by simp)
    · rw [h1] at hout; exact absurd hout (by simp)
    · rw [houtEq] at hout
      injection hout with h1 h2
      subst h1
      subst h2
      have hcost : costConsistent s := by simpa [SessInv, hst] using hinv
      rcases hcost with ⟨hm, hc, d, hd, hdne⟩ | ⟨hscc, hdship⟩
      · refine ⟨q, price, .pickup, hq, hpr, ?_, ?_, ?_, rfl, rfl, rfl, rfl,
          by norm_num [surcharge]⟩
        · simp [choiceOfSession, hm]
        · rw [hc]
          simp [surcharge]
        · exact ⟨o, by rw [hsh]; exact homem, hoid, htot⟩
      · rcases hscc with ⟨hm, hc⟩ | ⟨hm, hc⟩ | ⟨hm, hc⟩
        · refine ⟨q, price, .inpost, hq, hpr, ?_, ?_, ?_, rfl, rfl, rfl, rfl,
            by norm_num [surcharge]⟩
          · simp [choiceOfSession, hm]
          · rw [hc]
            simp [surcharge]
          · exact ⟨o, by rw [hsh]; exact homem, hoid, htot⟩
        · refine ⟨q, price, .dpdPoint, hq, hpr, ?_, ?_, ?_, rfl, rfl, rfl, rfl,
            by norm_num [surcharge]⟩
          · simp [choiceOfSession, hm]
          · rw [hc]
            simp [surcharge]
          · exact ⟨o, by rw [hsh]; exact homem, hoid, htot⟩
        · refine ⟨q, price, .dpdLocker, hq, hpr, ?_, ?_, ?_, rfl, rfl, rfl, rfl,
            by norm_num [surcharge]⟩
          · simp [choiceOfSession, hm]
          · rw [hc]
            simp [surcharge]
          · exact ⟨o, by rw [hsh]; exact homem, hoid, htot⟩

/-- A concrete shop and buyer for the witness run. -/
def wdb : DBState := ⟨[⟨1, "Jednorazówka", 0, 25⟩], [⟨1, 1, "Arbuz", 5⟩], [], 2, 2, 1⟩

def wu : UserT := ⟨9, "Ala", none⟩

def ws1 : Session := (step wdb clearedSession (.msgText "🛍️ Kupuję") wu).sess

def ws2 : Session := (step wdb ws1 (.cbProduct 1) wu).sess

def ws3 : Session := (step wdb ws2 (.msgText "🔹 Arbuz (5)") wu).sess

def ws4 : Session := (step wdb ws3 (.msgText "3") wu).sess

def ws5 : Session := (step wdb ws4 (.cbDelivery "pickup") wu).sess

def ws6 : Session := (step wdb ws5 (.cbPickupCity "Warszawa") wu).sess

def ws7 : Session := (step wdb ws6 (.cbPayment "BLIK") wu).sess

theorem reach_ws5 : Reach ws5 :=
  Reach.step wdb (.cbDelivery "pickup") wu
    (Reach.step wdb (.msgText "3") wu
      (Reach.step wdb (.msgText "🔹 Arbuz (5)") wu
        (Reach.step wdb (.cbProduct 1) wu
          (Reach.step wdb (.msgText "🛍️ Kupuję") wu Reach.init))))

theorem reach_ws7 : Reach ws7 :=
  Reach.step wdb (.cbPayment "BLIK") wu
    (Reach.step wdb (.cbPickupCity "Warszawa") wu reach_ws5)

/-- Witness for C8 on a concrete pickup run. -/
theorem cash_payment_iff_pickup_branch_witness :
    ∃ d, (step wdb ws5 (.cbPickupCity "Warszawa") wu).sess.deliveryType = some d ∧
      (("Gotówka" ∈ payment_keyboard true) ↔ d ≠ "ship") ∧ "BLIK" ∈ payment_keyboard true :=
  cash_payment_iff_pickup_branch wdb ws5 (.cbPickupCity "Warszawa") wu true reach_ws5 rfl

/-- Witness for C7 on the same run: 3 units at 25 with pickup surcharge 0. -/
theorem order_total_price_formula_witness :
    ∃ q price c, ws7.quantity = some q ∧ ws7.price = some price ∧
      choiceOfSession ws7 = some c ∧
      (((3 : Int) : ℚ) * 25 + (0 : ℚ)) = (q : ℚ) * price + surcharge c ∧
      (∃ o, o ∈ (step wdb ws7 (.cbConfirm .yes) wu).db.orders ∧ o.id = 1 ∧
        o.totalPrice = (((3 : Int) : ℚ) * 25 + (0 : ℚ))) ∧
      surcharge .pickup = 0 ∧ surcharge .inpost = 12 ∧ surcharge .dpdPoint = 6 ∧
      surcharge .dpdLocker = 10 ∧ surcharge .dpdPoint ≠ surcharge .dpdLocker :=
  order_total_price_formula wdb ws7 (.cbConfirm .yes) wu 1 (((3 : Int) : ℚ) * 25 + (0 : ℚ))
    reach_ws7 rfl
